import Mathlib

/-!
# vola-auto: execution gate, module invoker, tabular collectors

A shallow embedding of `plugins/base.go`, `plugins/collectors/files.go` and
`plugins/collectors/proc.go`, followed by the properties proved about it.

Conventions of the embedding.

* A Go `string` is a `List Char` (`Str`); string literals are written
  `"...".data`.
* A file read through `bufio.Scanner` is the list of lines the scanner yields.
* A Go `error` is a value of `Err`; `nil` is `none`.
* `int` and `uint` are 64 bits wide; `uint(x)` is `x mod 2^64`.
* Pointers to `datastore.Process` are indices into an explicit heap.
* The outcome of every system call is supplied by an explicit environment.
-/

set_option autoImplicit false

namespace VolaAuto

/-! ## Strings -/

/-- A Go string, as its sequence of runes. -/
abbrev Str := List Char

/-- Go `unicode.IsSpace`: the runes `strings.Fields` splits on. -/
def isSpace (c : Char) : Bool :=
  c = '\t' || c = '\n' || c = '\x0b' || c = '\x0c' || c = '\r' || c = ' '
    || c.toNat = 0x85 || c.toNat = 0xA0 || c.toNat = 0x1680
    || (0x2000 ≤ c.toNat && c.toNat ≤ 0x200a)
    || c.toNat = 0x2028 || c.toNat = 0x2029 || c.toNat = 0x202f
    || c.toNat = 0x205f || c.toNat = 0x3000

/-- Worker of `Fields`: `cur` is the field being read, most recent rune first. -/
def FieldsFrom : Str → Str → List Str
  | [], cur => if cur.isEmpty then [] else [cur.reverse]
  | c :: cs, cur =>
    if isSpace c then
      if cur.isEmpty then FieldsFrom cs [] else cur.reverse :: FieldsFrom cs []
    else FieldsFrom cs (c :: cur)

/-- Go `strings.Fields`: the maximal runs of non-space runes, in order. -/
def Fields (s : Str) : List Str := FieldsFrom s []

/-- Go `strings.Contains s sub`: `sub` occurs in `s` as a contiguous block. -/
def Contains : Str → Str → Bool
  | [], sub => sub.isEmpty
  | c :: cs, sub => sub.isPrefixOf (c :: cs) || Contains cs sub

/-- Go `strings.Join elems sep`. -/
def Join : List Str → Str → Str
  | [], _ => []
  | [a], _ => a
  | a :: b :: rest, sep => a ++ sep ++ Join (b :: rest) sep

/-- Go `strings.HasSuffix`. -/
def HasSuffix (s suffix : Str) : Bool := suffix.isSuffixOf s

/-! ## Errors -/

/-- The error values the three source files build or pass on. -/
inductive Err where
  /-- An error returned by the operating system or a library, identified by a code. -/
  | os (code : Nat)
  /-- The value `io.EOF`. -/
  | eof
  /-- The value of `fmt.Errorf("parse pid %s failed", parts[0])`. -/
  | parsePid (field : Str)
  /-- The value of `fmt.Errorf("parse ppid %s failed", parts[1])`. -/
  | parsePpid (field : Str)
  /-- The value of `fmt.Errorf("empty offset to dump file %s", dumpFile.Path)`. -/
  | emptyOffset (path : Str)
  /-- The value of `fmt.Errorf("opening %s failed: %w", resultFilepath, err)`. -/
  | openFailed (path : Str) (cause : Err)
  /-- The value of `fmt.Errorf("%w;%w", aggregatedError, err)` when `aggregatedError` is nil. -/
  | joinedNil (e : Err)
  /-- The value of `fmt.Errorf("%w;%w", aggregatedError, err)` when `aggregatedError` is not nil. -/
  | joined (acc : Err) (e : Err)
  deriving DecidableEq, Repr

/-- A file handed to `os.Open` and read with `bufio.Scanner`: either the error
of `os.Open`, or the lines the scanner yields. -/
abbrev Artifact := Except Err (List Str)

/-! ## Data store -/

/-- Modelled from the spec: `datastore.FileInfo`, whose declaration is not among
the sources; the three fields are the ones `files.go` reads and writes. -/
structure FileInfo where
  Path : Str
  VirtualAddrOffset : Str
  PhysicalAddrOffset : Str
  deriving DecidableEq, Repr

/-! ## files.go: FilesPlugin.Run -/

/-- The header test of `FilesPlugin.Run` (files.go line 51). -/
def isFilescanHeader (line : Str) : Bool :=
  Contains line "Offset".data && Contains line "Name".data && Contains line "Size".data

/-- The record `FilesPlugin.Run` builds from the fields of a row
(files.go lines 62-70); `p0` is `parts[0]`, `p1` is `parts[1]`. -/
def mkFileInfo (Profile : Str) (p0 p1 : Str) : FileInfo :=
  let fileInfo : FileInfo := { Path := p1, VirtualAddrOffset := [], PhysicalAddrOffset := [] }
  if Profile = "win10".data then
    { fileInfo with VirtualAddrOffset := p0 }
  else
    { fileInfo with PhysicalAddrOffset := p0 }

/-- The scanning loop of `FilesPlugin.Run` (files.go lines 44-73), over the
remaining lines, the flag `isProcessDataFound` and `datastore.FileList`. -/
def FilesPlugin.scan (Profile : Str) : List Str → Bool → List FileInfo → List FileInfo
  | [], _, FileList => FileList
  | line :: rest, isProcessDataFound, FileList =>
    if line.length = 0 then
      FilesPlugin.scan Profile rest isProcessDataFound FileList
    else if !isProcessDataFound then
      if isFilescanHeader line then
        FilesPlugin.scan Profile rest true FileList
      else
        FilesPlugin.scan Profile rest isProcessDataFound FileList
    else
      let parts := Fields line
      if h : parts.length < 3 then
        FilesPlugin.scan Profile rest isProcessDataFound FileList
      else
        FilesPlugin.scan Profile rest isProcessDataFound
          (FileList ++ [mkFileInfo Profile parts[0] parts[1]])

/-- `FilesPlugin.Run` (files.go lines 34-79): the returned error and the new
value of `datastore.FileList`. `Profile` is `datastore.HostInfo.Profile`. -/
def FilesPlugin.Run (filescan : Artifact) (Profile : Str) (FileList : List FileInfo) :
    Option Err × List FileInfo :=
  match filescan with
  | .error err => (some err, FileList)
  | .ok lines => (none, FilesPlugin.scan Profile lines false FileList)

/-! ## base.go: configuration and environment -/

/-- Modelled from the spec: `config.Default.VolRunConfig`, whose declaration is
not among the sources; the fields are the ones `base.go` and `files.go` read. -/
structure VolRunConfig where
  Binary : Str
  Runner : Str
  deriving DecidableEq, Repr

/-- Modelled from the spec: `config.Default`, whose declaration is not among the
sources; the fields are the ones `base.go` and `files.go` read. -/
structure Config where
  IsForcedRerun : Bool
  VolRunConfig : VolRunConfig
  MemoryDumpPath : Str
  BatchCmdFolder : Str
  deriving DecidableEq, Repr

/-- What a path names in the file system. -/
inductive Node where
  | absent
  | file
  | dir (entries : List Str)
  deriving DecidableEq, Repr

/-- The state of one path: what it names, and which of the system calls made
by `IsRunRequired` fail on it for a reason other than absence (for example
missing permissions). -/
structure PathState where
  node : Node
  /-- `os.Stat` fails with an error that is not "does not exist". -/
  statFails : Bool
  /-- `os.Open` fails. -/
  openFails : Bool
  /-- `Readdirnames` fails with an error that is not `io.EOF`. -/
  readFails : Bool
  deriving DecidableEq, Repr

/-- A file system state: the state of every path. -/
abbrev FileSystem := Str → PathState

/-- The `os.FileInfo` value returned by `os.Stat`, reduced to `IsDir()`. -/
structure OSFileInfo where
  IsDir : Bool
  deriving DecidableEq, Repr

/-- The error `ENOENT`. -/
def ENOENT : Err := Err.os 2

/-- The error `EACCES`. -/
def EACCES : Err := Err.os 13

/-- The error `EIO`. -/
def EIO : Err := Err.os 5

/-- Go `os.IsNotExist`. -/
def IsNotExist (err : Option Err) : Bool := err = some ENOENT

/-- Go `os.Stat`: a nil file info and an error, or a file info and nil. -/
def osStat (st : PathState) : Option OSFileInfo × Option Err :=
  if st.statFails then (none, some EACCES)
  else match st.node with
    | .absent => (none, some ENOENT)
    | .file => (some { IsDir := false }, none)
    | .dir _ => (some { IsDir := true }, none)

/-- Go `os.Open`: the opened directory's entries, or an error. -/
def osOpen (st : PathState) : Except Err (List Str) :=
  if st.openFails then .error EACCES
  else match st.node with
    | .absent => .error ENOENT
    | .file => .ok []
    | .dir entries => .ok entries

/-- Go `f.Readdirnames(n)` for `n > 0` on a freshly opened directory: at most
`n` names and nil, or no name and an error, `io.EOF` at the end of the directory. -/
def Readdirnames (st : PathState) (entries : List Str) (n : Nat) : List Str × Option Err :=
  if st.readFails then ([], some EIO)
  else if entries.isEmpty then ([], some Err.eof)
  else (entries.take n, none)

/-- `IsRunRequired` (base.go lines 41-63). The result is `none` when the
function does not return because `fileInfo.IsDir()` is called on a nil
`fileInfo` (line 50). -/
def IsRunRequired (cfg : Config) (fs : FileSystem) (artifactExtractionFilepath : Str) :
    Option Bool :=
  if cfg.IsForcedRerun then
    some true
  else
    let (fileInfo, err) := osStat (fs artifactExtractionFilepath)
    if IsNotExist err then
      some true
    else
      match fileInfo with
      | none => none
      | some fileInfo =>
        if !fileInfo.IsDir then
          some false
        else
          match osOpen (fs artifactExtractionFilepath) with
          | .error _ => some true
          | .ok f =>
            let (_, err) := Readdirnames (fs artifactExtractionFilepath) f 1
            some (err != none)

/-- The flag `os.O_WRONLY`, with its value on linux. -/
def O_WRONLY : Nat := 0x1

/-- The flag `os.O_CREATE`, with its value on linux. -/
def O_CREATE : Nat := 0x40

/-- The flag `os.O_TRUNC`, with its value on linux. -/
def O_TRUNC : Nat := 0x200

/-- The flag `os.O_APPEND`, with its value on linux. -/
def O_APPEND : Nat := 0x400

/-- `GetFileOpenFlag` (base.go lines 65-73). -/
def GetFileOpenFlag (isOverride : Bool) : Nat :=
  let perms := O_CREATE ||| O_WRONLY
  if !isOverride then
    perms ||| O_APPEND
  else
    perms ||| O_TRUNC

/-- What one call of `RunVolatilityPluginAndWriteResult` meets outside the
program: library tables and the outcome of the system calls it makes. -/
structure Env where
  /-- Whether two different runes are equal under Unicode simple case folding. -/
  foldEq : Char → Char → Bool
  /-- Go `filepath.Join` of two elements. -/
  pathJoin : Str → Str → Str
  /-- The value of `uuid.New().String()`. -/
  newUUID : Str
  /-- The error of `os.OpenFile name flag 0644`, `none` when the file was opened. -/
  openFile : Str → Nat → Option Err
  /-- The error of `cmd.Run()` for the given program, arguments and, when the
  standard streams are redirected, the file they are redirected to. -/
  runCmd : Str → List Str → Option Str → Option Err

/-- An effect of `RunVolatilityPluginAndWriteResult` on the outside world. -/
inductive Event where
  /-- A call of `os.OpenFile path flag 0644`. -/
  | openFile (path : Str) (flag : Nat)
  /-- The "Executing" log line, at level info (`true`) or debug (`false`). -/
  | logExecuting (info : Bool) (cmd : Str) (output : Str)
  /-- A call of `cmd.Run()`: the external process is spawned. -/
  | run (runner : Str) (args : List Str) (redirect : Option Str)
  /-- The deferred `outputFileWriter.Close()`. -/
  | close (path : Str)
  deriving DecidableEq, Repr

/-- Go `strings.EqualFold`, rune by rune. -/
def EqualFold (foldEq : Char → Char → Bool) : Str → Str → Bool
  | [], [] => true
  | c :: cs, d :: ds => (c = d || foldEq c d) && EqualFold foldEq cs ds
  | _, _ => false

/-- The argument vector after base.go lines 81-84. -/
def commandArgs (cfg : Config) (env : Env) (args : List Str) : List Str :=
  match args with
  | [] => args
  | args0 :: _ =>
    if !EqualFold env.foldEq args0 cfg.VolRunConfig.Binary then
      [cfg.VolRunConfig.Binary, "-q".data, "-f".data, cfg.MemoryDumpPath] ++ args
    else
      args

/-- `RunVolatilityPluginAndWriteResult` (base.go lines 75-110): the returned
error and the effects, in order. `cmd.Args` is the runner followed by the
arguments. -/
def RunVolatilityPluginAndWriteResult (cfg : Config) (env : Env) (args : List Str)
    (resultFilepath : Str) (isOverride : Bool) : Option Err × List Event :=
  let isDumpingFile := args.contains "-o".data
  let args := commandArgs cfg env args
  let cmdArgs := Join (cfg.VolRunConfig.Runner :: args) " ".data
  if !isDumpingFile then
    let (resultFilepath, info) :=
      if resultFilepath.length = 0 then
        (env.pathJoin cfg.BatchCmdFolder (env.newUUID.take 8 ++ ".txt".data), true)
      else
        (resultFilepath, false)
    match env.openFile resultFilepath (GetFileOpenFlag isOverride) with
    | some err =>
      (some (Err.openFailed resultFilepath err),
        [Event.openFile resultFilepath (GetFileOpenFlag isOverride)])
    | none =>
      (env.runCmd cfg.VolRunConfig.Runner args (some resultFilepath),
        [Event.openFile resultFilepath (GetFileOpenFlag isOverride),
         Event.logExecuting info cmdArgs resultFilepath,
         Event.run cfg.VolRunConfig.Runner args (some resultFilepath),
         Event.close resultFilepath])
  else
    (env.runCmd cfg.VolRunConfig.Runner args none,
      [Event.logExecuting false cmdArgs resultFilepath,
       Event.run cfg.VolRunConfig.Runner args none])

/-! ## files.go: DumpFile and DumpFiles -/

/-- `FilesPlugin.DumpFile` (files.go lines 97-118). -/
def FilesPlugin.DumpFile (cfg : Config) (env : Env) (dumpFile : FileInfo) (outputFolder : Str) :
    Option Err × List Event :=
  let (offset, offsetTypeFlag) : Str × Str :=
    if dumpFile.PhysicalAddrOffset.length != 0 then
      (dumpFile.PhysicalAddrOffset, "--physaddr".data)
    else if dumpFile.VirtualAddrOffset.length != 0 then
      (dumpFile.VirtualAddrOffset, "--virtaddr".data)
    else
      ([], [])
  if offset.length = 0 then
    (some (Err.emptyOffset dumpFile.Path), [])
  else
    let args := [cfg.VolRunConfig.Binary,
      "-f".data, cfg.MemoryDumpPath,
      "-o".data, outputFolder,
      "windows.dumpfiles.DumpFiles".data,
      offsetTypeFlag, offset]
    RunVolatilityPluginAndWriteResult cfg env args [] true

/-- The value `fmt.Errorf("%w;%w", aggregatedError, err)` (files.go line 130). -/
def joinErrors (aggregatedError : Option Err) (err : Err) : Err :=
  match aggregatedError with
  | none => Err.joinedNil err
  | some acc => Err.joined acc err

/-- The state the tasks of `DumpFiles` share, and what they did: the guarded
variable `aggregatedError`, the calls of `DumpFile` made so far (index of the
record, returned error) and the effects of those calls. -/
structure DumpState where
  aggregatedError : Option Err
  calls : List (Nat × Option Err)
  events : List Event

/-- The task `DumpFiles` submits for index `copiedIdx` (files.go lines 126-133),
run in the environment `env`. -/
def FilesPlugin.DumpFiles.task (cfg : Config) (env : Env) (dumpFiles : List FileInfo)
    (outputFolder : Str) (copiedIdx : Nat) (st : DumpState) : DumpState :=
  match dumpFiles[copiedIdx]? with
  | none => st
  | some dumpFile =>
    let (err, evs) := FilesPlugin.DumpFile cfg env dumpFile outputFolder
    { aggregatedError :=
        match err with
        | some err => some (joinErrors st.aggregatedError err)
        | none => st.aggregatedError
      calls := st.calls ++ [(copiedIdx, err)]
      events := st.events ++ evs }

/-- The indices for which `DumpFiles` submits a task (files.go line 124). -/
def FilesPlugin.DumpFiles.submitted (dumpFiles : List FileInfo) : List Nat :=
  List.range dumpFiles.length

/-- `FilesPlugin.DumpFiles` (files.go lines 120-140). The worker pool runs the
submitted tasks in the order `order`, task `i` in the environment `envs i`;
`taskGroup.Wait()` returns when all of them have run. The result is the
returned error together with the final shared state. -/
def FilesPlugin.DumpFiles (cfg : Config) (envs : Nat → Env) (order : List Nat)
    (dumpFiles : List FileInfo) (outputFolder : Str) : Option Err × DumpState :=
  let final := order.foldl
    (fun st i => FilesPlugin.DumpFiles.task cfg (envs i) dumpFiles outputFolder i st)
    { aggregatedError := none, calls := [], events := [] }
  (final.aggregatedError, final)

/-! ## proc.go: ProcessesPlugin.Run -/

/-- The value of a decimal digit. -/
def digitVal (c : Char) : Option Nat :=
  if '0' ≤ c ∧ c ≤ '9' then some (c.toNat - '0'.toNat) else none

/-- The number written by a string of decimal digits, after the digits `acc`. -/
def parseDigits : Str → Nat → Option Nat
  | [], acc => some acc
  | c :: cs, acc =>
    match digitVal c with
    | none => none
    | some d => parseDigits cs (acc * 10 + d)

/-- Go `strconv.Atoi` with a 64-bit `int`: an optional sign and at least one
decimal digit, the value within the range of `int`; `none` is a non-nil error. -/
def Atoi (s : Str) : Option Int :=
  let (neg, digits) : Bool × Str :=
    match s with
    | '-' :: rest => (true, rest)
    | '+' :: rest => (false, rest)
    | _ => (false, s)
  if digits.isEmpty then none
  else
    match parseDigits digits 0 with
    | none => none
    | some n =>
      if neg then
        if n ≤ 2 ^ 63 then some (-(n : Int)) else none
      else
        if n < 2 ^ 63 then some (n : Int) else none

/-- The Go conversion `uint(x)` of an `int`, 64 bits wide. -/
def toUint (x : Int) : Nat := (x % (2 ^ 64 : Int)).toNat

/-- Modelled from the spec: `datastore.Process`, whose declaration is not among
the sources; the fields are the ones `proc.go` writes. `ParentProc` is a
pointer: the heap address of a record, or nil. -/
structure Process where
  ImageName : Str
  PID : Nat
  Args : Str
  ParentProc : Option Nat
  deriving DecidableEq, Repr

/-- Modelled from the spec: the process part of the shared store. `heap` holds
the allocated `Process` values, a pointer being an index into it;
`PIDToProcess` is `datastore.PIDToProcess`, of type `map[uint]*Process`, as an
association list in which the first binding of a key is the current one. -/
structure Store where
  heap : List Process
  PIDToProcess : List (Nat × Nat)
  deriving DecidableEq, Repr

/-- The empty store. -/
def Store.empty : Store := { heap := [], PIDToProcess := [] }

/-- The map read `datastore.PIDToProcess[pid]`, `none` when the key is absent. -/
def Store.lookup (s : Store) (pid : Nat) : Option Nat := s.PIDToProcess.lookup pid

/-- The record a key of `datastore.PIDToProcess` points to. -/
def Store.record (s : Store) (pid : Nat) : Option Process :=
  match s.lookup pid with
  | none => none
  | some ptr => s.heap[ptr]?

/-- The header test of pass one (proc.go line 52). -/
def isCmdlineHeader (line : Str) : Bool :=
  Contains line "PID".data && Contains line "Process".data && Contains line "Args".data

/-- The header test of pass two (proc.go line 102). -/
def isPslistHeader (line : Str) : Bool :=
  Contains line "PID".data && Contains line "PPID".data && Contains line "ImageFileName".data

/-- The body of pass one for a row (proc.go lines 63-78): `p0` is `parts[0]`,
`p1` is `parts[1]`, `tail` is `parts[2:]`. -/
def cmdlineRow (p0 p1 : Str) (tail : List Str) (s : Store) : Except Err Store :=
  match Atoi p0 with
  | none => .error (Err.parsePid p0)
  | some parsedPID =>
    let proc : Process :=
      { ImageName := p1, PID := toUint parsedPID, Args := [], ParentProc := none }
    let proc : Process :=
      if proc.PID ≠ 4 then { proc with Args := Join tail " ".data } else proc
    .ok { heap := s.heap ++ [proc],
          PIDToProcess := (proc.PID, s.heap.length) :: s.PIDToProcess }

/-- The loop of pass one (proc.go lines 45-79): the error returned from inside
the loop, if any, and the store. -/
def ProcessesPlugin.scanCmdline : List Str → Bool → Store → Option Err × Store
  | [], _, s => (none, s)
  | line :: rest, isProcessDataFound, s =>
    if line.length = 0 then
      ProcessesPlugin.scanCmdline rest isProcessDataFound s
    else if !isProcessDataFound then
      if isCmdlineHeader line then
        ProcessesPlugin.scanCmdline rest true s
      else
        ProcessesPlugin.scanCmdline rest isProcessDataFound s
    else
      let parts := Fields line
      if h : parts.length < 3 then
        ProcessesPlugin.scanCmdline rest isProcessDataFound s
      else
        match cmdlineRow parts[0] parts[1] (parts.drop 2) s with
        | .error err => (some err, s)
        | .ok s => ProcessesPlugin.scanCmdline rest isProcessDataFound s

/-- The body of pass two for a row (proc.go lines 113-130): `p0` is `parts[0]`,
`p1` is `parts[1]`. -/
def pslistRow (p0 p1 : Str) (s : Store) : Except Err Store :=
  match Atoi p0 with
  | none => .error (Err.parsePid p0)
  | some parsedPID =>
    match Atoi p1 with
    | none => .error (Err.parsePpid p1)
    | some parsedPPID =>
      match s.lookup (toUint parsedPID) with
      | none => .ok s
      | some child =>
        match s.lookup (toUint parsedPPID) with
        | none => .ok s
        | some parent =>
          .ok { s with heap := s.heap.modify (fun proc => { proc with ParentProc := some parent }) child }

/-- The loop of pass two (proc.go lines 95-131): the error returned from inside
the loop, if any, and the store. -/
def ProcessesPlugin.scanPslist : List Str → Bool → Store → Option Err × Store
  | [], _, s => (none, s)
  | line :: rest, isProcessDataFound, s =>
    if line.length = 0 then
      ProcessesPlugin.scanPslist rest isProcessDataFound s
    else if !isProcessDataFound then
      if isPslistHeader line then
        ProcessesPlugin.scanPslist rest true s
      else
        ProcessesPlugin.scanPslist rest isProcessDataFound s
    else
      let parts := Fields line
      if h : parts.length < 3 then
        ProcessesPlugin.scanPslist rest isProcessDataFound s
      else
        match pslistRow parts[0] parts[1] s with
        | .error err => (some err, s)
        | .ok s => ProcessesPlugin.scanPslist rest isProcessDataFound s

/-- `ProcessesPlugin.Run` (proc.go lines 34-138): the returned error and the
store it leaves. -/
def ProcessesPlugin.Run (cmdline pslist : Artifact) (s : Store) : Option Err × Store :=
  match cmdline with
  | .error err => (some err, s)
  | .ok lines =>
    match ProcessesPlugin.scanCmdline lines false s with
    | (some err, s) => (some err, s)
    | (none, s) =>
      match pslist with
      | .error err => (some err, s)
      | .ok lines => ProcessesPlugin.scanPslist lines false s

/-! ## files.go: RenameDumpedFilesExtention -/

/-- Go `strings.TrimSuffix`. -/
def TrimSuffix (s suffix : Str) : Str :=
  if HasSuffix s suffix then s.take (s.length - suffix.length) else s

/-- Worker of `Ext`: `rev` is the part of the path not yet scanned, last rune
first, and `acc` the part already scanned. -/
def ExtFrom : Str → Str → Str
  | [], _ => []
  | c :: rev, acc =>
    if c = '/' then []
    else if c = '.' then c :: acc
    else ExtFrom rev (c :: acc)

/-- Go `filepath.Ext`, with the path separator of linux: the suffix beginning
at the final dot of the final element of the path, empty if there is no dot. -/
def Ext (path : Str) : Str := ExtFrom path.reverse []

/-- One call `filepath.Walk` makes to its callback: the path, the name and kind
reported by the file info, and the error of reaching the entry. -/
structure WalkEntry where
  path : Str
  Name : Str
  IsDir : Bool
  err : Option Err
  deriving DecidableEq, Repr

/-- What `RenameDumpedFilesExtention` meets outside the program. -/
structure RenameEnv where
  /-- Go `filepath.Dir`. -/
  Dir : Str → Str
  /-- Go `filepath.Join` of two elements. -/
  Join : Str → Str → Str
  /-- The error of `os.Rename oldpath newpath`, `none` when the file was renamed. -/
  Rename : Str → Str → Option Err

/-- The name `RenameDumpedFilesExtention` computes for a file (files.go line 148). -/
def newName (Name newSuffix : Str) : Str :=
  TrimSuffix Name (Ext Name) ++ newSuffix

/-- The callback `RenameDumpedFilesExtention` gives to `filepath.Walk`
(files.go lines 143-155): the returned error and the calls of `os.Rename`
made, as pairs of old and new path. -/
def renameCallback (env : RenameEnv) (matchSuffix newSuffix : Str) (entry : WalkEntry) :
    Option Err × List (Str × Str) :=
  match entry.err with
  | some err => (some err, [])
  | none =>
    if !entry.IsDir && HasSuffix entry.Name matchSuffix then
      let target := env.Join (env.Dir entry.path) (newName entry.Name newSuffix)
      match env.Rename entry.path target with
      | some err => (some err, [(entry.path, target)])
      | none => (none, [(entry.path, target)])
    else
      (none, [])

/-- `FilesPlugin.RenameDumpedFilesExtention` (files.go lines 142-156).
`visits` are the entries `filepath.Walk outputFolder` passes to the callback,
in order, for as long as the callback returns nil; the walk stops at the first
error the callback returns. -/
def FilesPlugin.RenameDumpedFilesExtention (env : RenameEnv) (matchSuffix newSuffix : Str) :
    List WalkEntry → Option Err × List (Str × Str)
  | [] => (none, [])
  | entry :: rest =>
    match renameCallback env matchSuffix newSuffix entry with
    | (some err, renames) => (some err, renames)
    | (none, renames) =>
      let (err, more) := FilesPlugin.RenameDumpedFilesExtention env matchSuffix newSuffix rest
      (err, renames ++ more)

/-! ## Specification-side definitions

The definitions below are not translations of the code: they put the words of
the specification into Lean, to be compared with the code above. -/

namespace Spec

/-- A line is a filescan header when it contains "Offset", "Name" and "Size"
as substrings. -/
def IsFilescanHeader (line : Str) : Prop :=
  "Offset".data <:+: line ∧ "Name".data <:+: line ∧ "Size".data <:+: line

instance (line : Str) : Decidable (IsFilescanHeader line) := by
  unfold IsFilescanHeader
  infer_instance

/-- The file record of a line after the header: none when the line is empty or
has fewer than 3 whitespace-delimited fields; otherwise the record whose path
is the second field and whose offset, virtual for the profile "win10" and
physical for any other, is the first field. -/
def fileRecordOfLine (Profile : Str) (line : Str) : Option FileInfo :=
  if line ≠ [] ∧ 3 ≤ (Fields line).length then
    some { Path := (Fields line).getD 1 []
           VirtualAddrOffset := if Profile = "win10".data then (Fields line).getD 0 [] else []
           PhysicalAddrOffset := if Profile = "win10".data then [] else (Fields line).getD 0 [] }
  else
    none

/-- The lines that come after the first line satisfying the header test; no
line when there is no header. -/
def afterHeader (isHeader : Str → Bool) : List Str → List Str
  | [] => []
  | line :: rest => if isHeader line then rest else afterHeader isHeader rest

/-- A row: the first field, the second field, and the third and later fields. -/
abbrev Row := Str × Str × List Str

/-- The row of a line with at least 3 whitespace-delimited fields, none for any
other line. -/
def rowOf (line : Str) : Option Row :=
  match Fields line with
  | p0 :: p1 :: p2 :: rest => some (p0, p1, p2 :: rest)
  | _ => none

/-- The post-header rows of an artifact: the rows of the lines after the header
that have at least 3 fields, in order. -/
def rows (isHeader : Str → Bool) (lines : List Str) : List Row :=
  (afterHeader isHeader lines).filterMap rowOf

/-- The edge of a pslist row with respect to a process map: its identifier and
parent identifier, as `uint` values, when both are integers that occur in the
map; none otherwise. -/
def edgeOf (s : Store) (r : Row) : Option (Nat × Nat) :=
  match Atoi r.1, Atoi r.2.1 with
  | some pid, some ppid =>
    if (s.lookup (toUint pid)).isSome ∧ (s.lookup (toUint ppid)).isSome then
      some (toUint pid, toUint ppid)
    else
      none
  | _, _ => none

/-- The parent identifier of the last row for `p` whose two identifiers both
occur in the map; none when there is no such row. -/
def lastParent (s : Store) (rs : List Row) (p : Nat) : Option Nat :=
  (((rs.filterMap (edgeOf s)).filter (fun e => e.1 = p)).getLast?).map Prod.snd

end Spec

namespace Spec

/-- A file record is invalid when both of its offset fields are empty. -/
def isInvalid (f : FileInfo) : Bool :=
  f.PhysicalAddrOffset.isEmpty && f.VirtualAddrOffset.isEmpty

/-- The individual failures an aggregated error carries: the errors joined
into it by `fmt.Errorf("%w;%w", aggregatedError, err)`, oldest first. -/
def failures : Err → List Err
  | .joinedNil e => [e]
  | .joined acc e => failures acc ++ [e]
  | e => [e]

/-- The individual failures a returned error carries; nil carries none. -/
def failuresOf : Option Err → List Err
  | none => []
  | some e => failures e

/-- Whether an effect is the spawn of the external process. -/
def isRun : Event → Bool
  | .run _ _ _ => true
  | _ => false

/-- Whether an effect is the opening of a file. -/
def isOpenFile : Event → Bool
  | .openFile _ _ => true
  | _ => false

end Spec

namespace Spec

/-- A name with a suffix of the length of `matchSuffix` removed and `newSuffix`
put in its place. -/
def replaceSuffix (Name matchSuffix newSuffix : Str) : Str :=
  Name.take (Name.length - matchSuffix.length) ++ newSuffix

end Spec

/-! ## Proof-side definitions -/

/-- Running a row body over a list of rows, stopping at the first error. -/
def runRows (step : Spec.Row → Store → Except Err Store) :
    List Spec.Row → Store → Option Err × Store
  | [], s => (none, s)
  | r :: rs, s =>
    match step r s with
    | .error err => (some err, s)
    | .ok s => runRows step rs s

/-- The body of pass one, on a row. -/
def cmdlineStep (r : Spec.Row) (s : Store) : Except Err Store :=
  cmdlineRow r.1 r.2.1 r.2.2 s

/-- The body of pass two, on a row. -/
def pslistStep (r : Spec.Row) (s : Store) : Except Err Store :=
  pslistRow r.1 r.2.1 s

/-- Every key of the map points to an allocated record that carries the key as
its identifier. -/
def Store.Keyed (s : Store) : Prop :=
  ∀ p a, s.lookup p = some a → ∃ proc, s.heap[a]? = some proc ∧ proc.PID = p

/-- No allocated record has a parent. -/
def Store.NoParents (s : Store) : Prop :=
  ∀ proc ∈ s.heap, proc.ParentProc = none

/-- The parent pointer of the record of `p` after pass two has run over the
rows `rs`, given the pointer `old` it had before. -/
def parentAfter (s : Store) (rs : List Spec.Row) (p : Nat) (old : Option Nat) : Option Nat :=
  match Spec.lastParent s rs p with
  | some q => s.lookup q
  | none => old

/-- The parent pointer of the record of `p` after pass two has processed the
row `r`, given the pointer `old` it had before. -/
def parentAfterRow (s : Store) (r : Spec.Row) (p : Nat) (old : Option Nat) : Option Nat :=
  match Spec.edgeOf s r with
  | some e => if e.1 = p then s.lookup e.2 else old
  | none => old

/-- The file `RunVolatilityPluginAndWriteResult` opens when the argument vector
has no "-o": the result path, or the fallback path when that is empty
(base.go lines 89-90). -/
def destination (cfg : Config) (env : Env) (resultFilepath : Str) : Str :=
  if resultFilepath.length = 0 then
    env.pathJoin cfg.BatchCmdFolder (env.newUUID.take 8 ++ ".txt".data)
  else
    resultFilepath

/-- The argument vector `DumpFile` builds (files.go lines 111-116). -/
def dumpArgs (cfg : Config) (dumpFile : FileInfo) (outputFolder : Str) : List Str :=
  [cfg.VolRunConfig.Binary, "-f".data, cfg.MemoryDumpPath, "-o".data, outputFolder,
   "windows.dumpfiles.DumpFiles".data,
   if dumpFile.PhysicalAddrOffset ≠ [] then "--physaddr".data else "--virtaddr".data,
   if dumpFile.PhysicalAddrOffset ≠ [] then dumpFile.PhysicalAddrOffset
   else dumpFile.VirtualAddrOffset]

/-- The error `DumpFile` returns for an invalid record, none for a valid one. -/
def invalidErr (f : FileInfo) : Option Err :=
  if Spec.isInvalid f then some (Err.emptyOffset f.Path) else none

/-- A mark for every valid record. -/
def validMark (f : FileInfo) : Option Unit :=
  if Spec.isInvalid f then none else some ()

/-! ## Concrete inputs -/

/-- Case folding restricted to the ASCII letters, on which it agrees with
Unicode simple case folding. -/
def asciiFoldEq (c d : Char) : Bool := c.toLower = d.toLower

/-- A configuration: the tool is `vol.py`, run by `python3`. -/
def exampleConfig : Config :=
  { IsForcedRerun := false
    VolRunConfig := { Binary := "vol.py".data, Runner := "python3".data }
    MemoryDumpPath := "mem.raw".data
    BatchCmdFolder := "batch".data }

/-- An environment in which every file opens and every process exits with
status zero. -/
def exampleEnv : Env :=
  { foldEq := asciiFoldEq
    pathJoin := fun dir name => dir ++ "/".data ++ name
    newUUID := "0f8fad5b-d9cb-469f-a165-70867728950e".data
    openFile := fun _ _ => none
    runCmd := fun _ _ _ => none }

/-- An environment in which every external process fails. -/
def failingEnv : Env := { exampleEnv with runCmd := fun _ _ _ => some (Err.os 1) }

/-- A file system in which every path is a directory holding one entry that
cannot be opened for reading. -/
def unreadableDirFS : FileSystem := fun _ =>
  { node := .dir ["pslist.txt".data], statFails := false, openFails := true, readFails := false }

/-- A file system in which every path is a readable directory holding one entry. -/
def readableDirFS : FileSystem := fun _ =>
  { node := .dir ["pslist.txt".data], statFails := false, openFails := false, readFails := false }

/-- Two file records: the first has a physical offset, the second no offset. -/
def exampleRecords : List FileInfo :=
  [{ Path := "\\a.dll".data, VirtualAddrOffset := [], PhysicalAddrOffset := "0x1a".data },
   { Path := "\\b.dll".data, VirtualAddrOffset := [], PhysicalAddrOffset := [] }]

/-- A store holding the single process 100. -/
def exampleStore : Store :=
  { heap := [{ ImageName := "smss.exe".data, PID := 100, Args := [], ParentProc := none }]
    PIDToProcess := [(100, 0)] }

/-- A cmdline artifact with rows for the identifiers 4, 100 and 200. -/
def exampleCmdline : List Str :=
  ["Volatility 3 Framework 2.5.0".data, [], "PID\tProcess\tArgs".data, [],
   "4\tSystem\tRequired memory at 0x20 is not valid".data,
   "100\tsmss.exe\t\\SystemRoot\\System32\\smss.exe".data,
   "200\tcmd.exe\tcmd.exe /c dir".data]

/-- A pslist artifact with the edges 200 → 100 and 100 → 4. -/
def examplePslist : List Str :=
  ["Volatility 3 Framework 2.5.0".data, [], "PID\tPPID\tImageFileName\tOffset(V)".data, [],
   "200\t100\tcmd.exe\t0xfa80".data,
   "100\t4\tsmss.exe\t0xfa81".data]

/-- A file system in which `os.Stat` fails on every path with an error other
than "does not exist", for example for want of permission on a parent. -/
def deniedFS : FileSystem := fun _ =>
  { node := .file, statFails := true, openFails := false, readFails := false }

/-- An environment in which no file can be opened. -/
def noOpenEnv : Env := { exampleEnv with openFile := fun _ _ => some (Err.os 13) }

/-- A filescan artifact with one row. -/
def exampleFilescan : List Str :=
  ["Offset\tName\tSize".data, "0x1a\t\\Windows\\a.dll\t216".data]

/-- A cmdline artifact with rows for the identifiers 100 and 200. -/
def cycleCmdline : List Str :=
  ["PID\tProcess\tArgs".data, "100\ta.exe\ta.exe -x".data, "200\tb.exe\tb.exe -y".data]

/-- A pslist artifact with the edge 100 → 100. -/
def selfPslist : List Str :=
  ["PID\tPPID\tImageFileName".data, "100\t100\ta.exe".data]

/-- A pslist artifact with the edges 100 → 200 and 200 → 100. -/
def cyclePslist : List Str :=
  ["PID\tPPID\tImageFileName".data, "100\t200\ta.exe".data, "200\t100\tb.exe".data]

/-- A cmdline artifact whose rows carry the identifiers "0" and "-1". -/
def signedCmdline : List Str :=
  ["PID\tProcess\tArgs".data, "0\tIdle\tidle loop".data, "-1\tghost\tghost -x".data]

/-- An environment for renaming files that all lie in the folder "out". -/
def exampleRenameEnv : RenameEnv :=
  { Dir := fun _ => "out".data
    Join := fun dir name => dir ++ "/".data ++ name
    Rename := fun _ _ => none }

/-- A cmdline artifact with a row, a line of two fields, and a second row. -/
def shortLineCmdline : List Str :=
  ["PID\tProcess\tArgs".data, "100\ta.exe\ta.exe -x".data, "oops 7".data,
   "200\tb.exe\tb.exe -y".data]

/-! ## Strings: lemmas -/

theorem Contains_iff (s sub : Str) : Contains s sub = true ↔ sub <:+: s := by
  induction s with
  | nil =>
    cases sub <;> simp [Contains]
  | cons c cs ih =>
    rw [Contains, Bool.or_eq_true, ih, List.infix_cons_iff, List.isPrefixOf_iff_prefix]

theorem FieldsFrom_ne_nil (s cur : Str) : ∀ f ∈ FieldsFrom s cur, f ≠ [] := by
  induction s generalizing cur with
  | nil =>
    intro f hf
    cases cur with
    | nil => simp [FieldsFrom] at hf
    | cons a as =>
      simp [FieldsFrom] at hf
      subst hf
      simp
  | cons c cs ih =>
    intro f hf
    unfold FieldsFrom at hf
    split at hf
    · cases cur with
      | nil => exact ih [] f (by simpa using hf)
      | cons a as =>
        simp at hf
        rcases hf with hf | hf
        · subst hf; simp
        · exact ih [] f hf
    · exact ih _ f hf

theorem Fields_ne_nil (s : Str) : ∀ f ∈ Fields s, f ≠ [] :=
  FieldsFrom_ne_nil s []

theorem Fields_nil : Fields [] = [] := rfl

/-! ## files.go: FilesPlugin.Run, lemmas -/

theorem isFilescanHeader_iff (line : Str) :
    isFilescanHeader line = true ↔ Spec.IsFilescanHeader line := by
  simp [isFilescanHeader, Spec.IsFilescanHeader, Contains_iff, and_assoc]

theorem isFilescanHeader_ne_nil (line : Str) (h : isFilescanHeader line = true) :
    line.length ≠ 0 := by
  intro h0
  have : line = [] := List.length_eq_zero.mp h0
  subst this
  revert h
  decide

theorem mkFileInfo_eq (Profile : Str) (line : Str) (hlen : ¬ (Fields line).length < 3) :
    Spec.fileRecordOfLine Profile line
      = some (mkFileInfo Profile ((Fields line)[0]) ((Fields line)[1])) := by
  have hne : line ≠ [] := by
    intro h0
    subst h0
    simp [Fields_nil] at hlen
  have h3 : 3 ≤ (Fields line).length := by omega
  unfold Spec.fileRecordOfLine mkFileInfo
  rw [if_pos ⟨hne, h3⟩]
  have e0 : (Fields line).getD 0 [] = (Fields line)[0] := by
    rw [List.getD_eq_getElem _ _ (by omega)]
  have e1 : (Fields line).getD 1 [] = (Fields line)[1] := by
    rw [List.getD_eq_getElem _ _ (by omega)]
  rw [e0, e1]
  by_cases hp : Profile = "win10".data <;> simp [hp]

theorem FilesPlugin.scan_found (Profile : Str) (lines : List Str) (FileList : List FileInfo) :
    FilesPlugin.scan Profile lines true FileList
      = FileList ++ lines.filterMap (Spec.fileRecordOfLine Profile) := by
  induction lines generalizing FileList with
  | nil => simp [FilesPlugin.scan]
  | cons line rest ih =>
    unfold FilesPlugin.scan
    by_cases h0 : line.length = 0
    · have hl : line = [] := List.length_eq_zero.mp h0
      subst hl
      simp [ih, Spec.fileRecordOfLine]
    · rw [if_neg h0]
      simp only [Bool.not_true, Bool.false_eq_true, if_false]
      by_cases hlen : (Fields line).length < 3
      · rw [dif_pos hlen, ih]
        have : Spec.fileRecordOfLine Profile line = none := by
          unfold Spec.fileRecordOfLine
          rw [if_neg]
          omega
        simp [List.filterMap_cons, this]
      · rw [dif_neg hlen, ih]
        simp [List.filterMap_cons, mkFileInfo_eq Profile line hlen]

theorem FilesPlugin.scan_no_header (Profile : Str) (lines : List Str) (FileList : List FileInfo)
    (h : ∀ l ∈ lines, isFilescanHeader l = false) :
    FilesPlugin.scan Profile lines false FileList = FileList := by
  induction lines with
  | nil => simp [FilesPlugin.scan]
  | cons line rest ih =>
    unfold FilesPlugin.scan
    have hl := h line (by simp)
    have hr := ih (fun l hl => h l (by simp [hl]))
    by_cases h0 : line.length = 0
    · simp [h0, hr]
    · simp [h0, hl, hr]

theorem FilesPlugin.scan_header (Profile : Str) (pre : List Str) (hd : Str) (post : List Str)
    (FileList : List FileInfo) (hpre : ∀ l ∈ pre, isFilescanHeader l = false)
    (hhd : isFilescanHeader hd = true) :
    FilesPlugin.scan Profile (pre ++ hd :: post) false FileList
      = FilesPlugin.scan Profile post true FileList := by
  induction pre with
  | nil =>
    have h0 := isFilescanHeader_ne_nil hd hhd
    simp only [List.nil_append]
    rw [FilesPlugin.scan]
    simp [h0, hhd]
  | cons line rest ih =>
    have hl := hpre line (by simp)
    have hr := ih (fun l hl => hpre l (by simp [hl]))
    simp only [List.cons_append]
    rw [FilesPlugin.scan]
    by_cases h0 : line.length = 0
    · simp [h0, hr]
    · simp [h0, hl, hr]

theorem FilesPlugin.Run_header (Profile : Str) (pre : List Str) (hd : Str) (post : List Str)
    (FileList : List FileInfo) (hpre : ∀ l ∈ pre, ¬ Spec.IsFilescanHeader l)
    (hhd : Spec.IsFilescanHeader hd) :
    FilesPlugin.Run (.ok (pre ++ hd :: post)) Profile FileList
      = (none, FileList ++ post.filterMap (Spec.fileRecordOfLine Profile)) := by
  have hpre' : ∀ l ∈ pre, isFilescanHeader l = false := by
    intro l hl
    have := hpre l hl
    rw [← isFilescanHeader_iff] at this
    simpa using this
  have hhd' : isFilescanHeader hd = true := (isFilescanHeader_iff hd).mpr hhd
  simp only [FilesPlugin.Run]
  rw [FilesPlugin.scan_header Profile pre hd post FileList hpre' hhd', FilesPlugin.scan_found]

theorem FilesPlugin.Run_no_header (Profile : Str) (lines : List Str)
    (FileList : List FileInfo) (h : ∀ l ∈ lines, ¬ Spec.IsFilescanHeader l) :
    FilesPlugin.Run (.ok lines) Profile FileList = (none, FileList) := by
  have h' : ∀ l ∈ lines, isFilescanHeader l = false := by
    intro l hl
    have := h l hl
    rw [← isFilescanHeader_iff] at this
    simpa using this
  simp only [FilesPlugin.Run]
  rw [FilesPlugin.scan_no_header Profile lines FileList h']

/-- Every artifact either has no header line or splits at its first one. -/
theorem split_at_header (lines : List Str) :
    (∀ l ∈ lines, ¬ Spec.IsFilescanHeader l) ∨
    ∃ pre hd post, lines = pre ++ hd :: post ∧ (∀ l ∈ pre, ¬ Spec.IsFilescanHeader l)
      ∧ Spec.IsFilescanHeader hd := by
  induction lines with
  | nil => left; simp
  | cons line rest ih =>
    by_cases hl : Spec.IsFilescanHeader line
    · right
      exact ⟨[], line, rest, rfl, by simp, hl⟩
    · rcases ih with ih | ⟨pre, hd, post, e, hpre, hhd⟩
      · left
        intro l hmem
        rcases List.mem_cons.mp hmem with h | h
        · subst h; exact hl
        · exact ih l h
      · right
        refine ⟨line :: pre, hd, post, by simp [e], ?_, hhd⟩
        intro l hmem
        rcases List.mem_cons.mp hmem with h | h
        · subst h; exact hl
        · exact hpre l h

/-! ## base.go and DumpFile: lemmas -/

theorem EqualFold_self (foldEq : Char → Char → Bool) (s : Str) : EqualFold foldEq s s = true := by
  induction s with
  | nil => rfl
  | cons c cs ih => simp [EqualFold, ih]

theorem commandArgs_cons_self (cfg : Config) (env : Env) (rest : List Str) :
    commandArgs cfg env (cfg.VolRunConfig.Binary :: rest) = cfg.VolRunConfig.Binary :: rest := by
  simp [commandArgs, EqualFold_self]

theorem RunVolatilityPluginAndWriteResult_run_args (cfg : Config) (env : Env) (args : List Str)
    (resultFilepath : Str) (isOverride : Bool) (runner : Str) (v : List Str)
    (redirect : Option Str)
    (h : Event.run runner v redirect
      ∈ (RunVolatilityPluginAndWriteResult cfg env args resultFilepath isOverride).2) :
    runner = cfg.VolRunConfig.Runner ∧ v = commandArgs cfg env args := by
  unfold RunVolatilityPluginAndWriteResult at h
  simp only at h
  split at h
  · split at h
    · simp at h
    · simp at h
      exact ⟨h.1, h.2.1⟩
  · simp at h
    exact ⟨h.1, h.2.1⟩

/-! ## DumpFiles: lemmas -/

theorem DumpFiles.task_eq (cfg : Config) (env : Env) (dumpFiles : List FileInfo)
    (outputFolder : Str) (i : Nat) (hi : i < dumpFiles.length) (st : DumpState) :
    FilesPlugin.DumpFiles.task cfg env dumpFiles outputFolder i st
      = { aggregatedError :=
            match (FilesPlugin.DumpFile cfg env dumpFiles[i] outputFolder).1 with
            | some err => some (joinErrors st.aggregatedError err)
            | none => st.aggregatedError
          calls := st.calls ++ [(i, (FilesPlugin.DumpFile cfg env dumpFiles[i] outputFolder).1)]
          events := st.events ++ (FilesPlugin.DumpFile cfg env dumpFiles[i] outputFolder).2 } := by
  unfold FilesPlugin.DumpFiles.task
  rw [List.getElem?_eq_getElem hi]

theorem DumpFiles.foldl_spec (cfg : Config) (envs : Nat → Env) (dumpFiles : List FileInfo)
    (outputFolder : Str) (order : List Nat) (hord : ∀ i ∈ order, i < dumpFiles.length)
    (st : DumpState) :
    let final := order.foldl
      (fun st i => FilesPlugin.DumpFiles.task cfg (envs i) dumpFiles outputFolder i st) st
    (final.aggregatedError = none ↔
      st.aggregatedError = none ∧
      ∀ i ∈ order, ∀ h : i < dumpFiles.length,
        (FilesPlugin.DumpFile cfg (envs i) dumpFiles[i] outputFolder).1 = none)
    ∧ final.calls = st.calls ++ order.attach.map (fun i =>
        (i.1, (FilesPlugin.DumpFile cfg (envs i.1)
          (dumpFiles.get ⟨i.1, hord i.1 i.2⟩) outputFolder).1)) := by
  induction order generalizing st with
  | nil => simp
  | cons i rest ih =>
    have hi : i < dumpFiles.length := hord i (by simp)
    have hrest : ∀ j ∈ rest, j < dumpFiles.length := fun j hj => hord j (by simp [hj])
    have := ih hrest (FilesPlugin.DumpFiles.task cfg (envs i) dumpFiles outputFolder i st)
    simp only [List.foldl_cons]
    simp only at this
    obtain ⟨h1, h2⟩ := this
    constructor
    · rw [h1, DumpFiles.task_eq cfg (envs i) dumpFiles outputFolder i hi st]
      cases hres : (FilesPlugin.DumpFile cfg (envs i) dumpFiles[i] outputFolder).1 with
      | none =>
        simp only [List.mem_cons, forall_eq_or_imp]
        constructor
        · rintro ⟨ha, hb⟩
          exact ⟨ha, fun _ => hres, hb⟩
        · rintro ⟨ha, _, hb⟩
          exact ⟨ha, hb⟩
      | some err =>
        simp only [List.mem_cons, forall_eq_or_imp]
        constructor
        · rintro ⟨ha, _⟩
          cases ha
        · rintro ⟨_, hb, _⟩
          have := hb hi
          rw [hres] at this
          cases this
    · rw [h2, DumpFiles.task_eq cfg (envs i) dumpFiles outputFolder i hi st]
      simp [List.attach_cons, List.map_map, Function.comp_def]

/-! ## proc.go: the loops as folds over rows -/

theorem rowOf_nil : Spec.rowOf [] = none := rfl

theorem parts_body_eq {α : Type} (parts : List Str) (skip : α)
    (body : Str → Str → List Str → α) :
    (if h : parts.length < 3 then skip else body parts[0] parts[1] (parts.drop 2))
      = match (match parts with
          | p0 :: p1 :: p2 :: rest => some (p0, p1, p2 :: rest)
          | _ => none : Option Spec.Row) with
        | none => skip
        | some r => body r.1 r.2.1 r.2.2 := by
  match parts with
  | [] => simp
  | [_] => simp
  | [_, _] => simp
  | p0 :: p1 :: p2 :: tl => simp

theorem row_body_eq {α : Type} (line : Str) (skip : α)
    (body : Str → Str → List Str → α) :
    (if h : (Fields line).length < 3 then skip
      else body (Fields line)[0] (Fields line)[1] ((Fields line).drop 2))
      = match Spec.rowOf line with
        | none => skip
        | some r => body r.1 r.2.1 r.2.2 :=
  parts_body_eq (Fields line) skip body

theorem scanCmdline_cons_found (line : Str) (rest : List Str) (s : Store) :
    ProcessesPlugin.scanCmdline (line :: rest) true s
      = match Spec.rowOf line with
        | none => ProcessesPlugin.scanCmdline rest true s
        | some r =>
          match cmdlineStep r s with
          | .error err => (some err, s)
          | .ok s => ProcessesPlugin.scanCmdline rest true s := by
  rw [ProcessesPlugin.scanCmdline]
  by_cases h0 : line.length = 0
  · have hl : line = [] := List.length_eq_zero.mp h0
    subst hl
    simp [rowOf_nil]
  · rw [if_neg h0]
    simp only [Bool.not_true, Bool.false_eq_true, if_false, cmdlineStep]
    exact row_body_eq line (ProcessesPlugin.scanCmdline rest true s)
      (fun p0 p1 tl =>
        match cmdlineRow p0 p1 tl s with
        | .error err => (some err, s)
        | .ok s => ProcessesPlugin.scanCmdline rest true s)

theorem scanPslist_cons_found (line : Str) (rest : List Str) (s : Store) :
    ProcessesPlugin.scanPslist (line :: rest) true s
      = match Spec.rowOf line with
        | none => ProcessesPlugin.scanPslist rest true s
        | some r =>
          match pslistStep r s with
          | .error err => (some err, s)
          | .ok s => ProcessesPlugin.scanPslist rest true s := by
  rw [ProcessesPlugin.scanPslist]
  by_cases h0 : line.length = 0
  · have hl : line = [] := List.length_eq_zero.mp h0
    subst hl
    simp [rowOf_nil]
  · rw [if_neg h0]
    simp only [Bool.not_true, Bool.false_eq_true, if_false, pslistStep]
    exact row_body_eq line (ProcessesPlugin.scanPslist rest true s)
      (fun p0 p1 _ =>
        match pslistRow p0 p1 s with
        | .error err => (some err, s)
        | .ok s => ProcessesPlugin.scanPslist rest true s)

theorem scanCmdline_found (lines : List Str) (s : Store) :
    ProcessesPlugin.scanCmdline lines true s
      = runRows cmdlineStep (lines.filterMap Spec.rowOf) s := by
  induction lines generalizing s with
  | nil => simp [ProcessesPlugin.scanCmdline, runRows]
  | cons line rest ih =>
    rw [scanCmdline_cons_found]
    cases hr : Spec.rowOf line with
    | none => simp [List.filterMap_cons, hr, ih]
    | some r =>
      simp only [List.filterMap_cons, hr, runRows]
      cases cmdlineStep r s with
      | error err => rfl
      | ok s1 => exact ih s1

theorem scanPslist_found (lines : List Str) (s : Store) :
    ProcessesPlugin.scanPslist lines true s
      = runRows pslistStep (lines.filterMap Spec.rowOf) s := by
  induction lines generalizing s with
  | nil => simp [ProcessesPlugin.scanPslist, runRows]
  | cons line rest ih =>
    rw [scanPslist_cons_found]
    cases hr : Spec.rowOf line with
    | none => simp [List.filterMap_cons, hr, ih]
    | some r =>
      simp only [List.filterMap_cons, hr, runRows]
      cases pslistStep r s with
      | error err => rfl
      | ok s1 => exact ih s1

theorem header_ne_nil (isHeader : Str → Bool) (hnil : isHeader [] = false) (line : Str)
    (h : isHeader line = true) : line.length ≠ 0 := by
  intro h0
  have : line = [] := List.length_eq_zero.mp h0
  subst this
  rw [hnil] at h
  cases h

theorem scanCmdline_eq_rows (lines : List Str) (s : Store) :
    ProcessesPlugin.scanCmdline lines false s
      = runRows cmdlineStep (Spec.rows isCmdlineHeader lines) s := by
  induction lines with
  | nil => simp [ProcessesPlugin.scanCmdline, Spec.rows, Spec.afterHeader, runRows]
  | cons line rest ih =>
    rw [ProcessesPlugin.scanCmdline]
    by_cases hh : isCmdlineHeader line = true
    · have h0 := header_ne_nil isCmdlineHeader (by decide) line hh
      simp [h0, hh, scanCmdline_found, Spec.rows, Spec.afterHeader]
    · have hh' : isCmdlineHeader line = false := by simpa using hh
      have e : Spec.rows isCmdlineHeader (line :: rest) = Spec.rows isCmdlineHeader rest := by
        simp [Spec.rows, Spec.afterHeader, hh']
      by_cases h0 : line.length = 0
      · simp [h0, ih, e]
      · simp [h0, hh', ih, e]

theorem scanPslist_eq_rows (lines : List Str) (s : Store) :
    ProcessesPlugin.scanPslist lines false s
      = runRows pslistStep (Spec.rows isPslistHeader lines) s := by
  induction lines with
  | nil => simp [ProcessesPlugin.scanPslist, Spec.rows, Spec.afterHeader, runRows]
  | cons line rest ih =>
    rw [ProcessesPlugin.scanPslist]
    by_cases hh : isPslistHeader line = true
    · have h0 := header_ne_nil isPslistHeader (by decide) line hh
      simp [h0, hh, scanPslist_found, Spec.rows, Spec.afterHeader]
    · have hh' : isPslistHeader line = false := by simpa using hh
      have e : Spec.rows isPslistHeader (line :: rest) = Spec.rows isPslistHeader rest := by
        simp [Spec.rows, Spec.afterHeader, hh']
      by_cases h0 : line.length = 0
      · simp [h0, ih, e]
      · simp [h0, hh', ih, e]

/-- The lines after the header are the lines after the first line that passes
the header test. -/
theorem afterHeader_append (isHeader : Str → Bool) (pre : List Str) (hd : Str)
    (post : List Str) (hpre : ∀ l ∈ pre, isHeader l = false) (hhd : isHeader hd = true) :
    Spec.afterHeader isHeader (pre ++ hd :: post) = post := by
  induction pre with
  | nil => simp [Spec.afterHeader, hhd]
  | cons line rest ih =>
    have hl := hpre line (by simp)
    simp [Spec.afterHeader, hl, ih (fun l h => hpre l (by simp [h]))]

/-! ## proc.go: strconv.Atoi at some inputs -/

theorem Atoi_examples :
    Atoi "200".data = some 200 ∧ Atoi "+7".data = some 7 ∧ Atoi "-1".data = some (-1)
    ∧ Atoi "007".data = some 7
    ∧ Atoi [] = none ∧ Atoi "-".data = none ∧ Atoi "0x1f".data = none
    ∧ Atoi "1_000".data = none ∧ Atoi "12a".data = none
    ∧ Atoi "9223372036854775807".data = some 9223372036854775807
    ∧ Atoi "9223372036854775808".data = none
    ∧ Atoi "-9223372036854775808".data = some (-9223372036854775808)
    ∧ toUint (-1) = 18446744073709551615 := by
  decide

/-! ## proc.go: errors -/

theorem cmdlineRow_ok (p0 p1 : Str) (tail : List Str) (s : Store) (n : Int)
    (h : Atoi p0 = some n) :
    cmdlineRow p0 p1 tail s
      = .ok { heap := s.heap ++ [{ ImageName := p1, PID := toUint n,
                                   Args := if toUint n = 4 then [] else Join tail " ".data,
                                   ParentProc := none }],
              PIDToProcess := (toUint n, s.heap.length) :: s.PIDToProcess } := by
  unfold cmdlineRow
  rw [h]
  by_cases h4 : toUint n = 4 <;> simp [h4]

theorem cmdlineRow_error (p0 p1 : Str) (tail : List Str) (s : Store) (h : Atoi p0 = none) :
    cmdlineRow p0 p1 tail s = .error (Err.parsePid p0) := by
  unfold cmdlineRow
  rw [h]

theorem pslistRow_error_pid (p0 p1 : Str) (s : Store) (h : Atoi p0 = none) :
    pslistRow p0 p1 s = .error (Err.parsePid p0) := by
  unfold pslistRow
  rw [h]

theorem pslistRow_error_ppid (p0 p1 : Str) (s : Store) (n : Int) (h0 : Atoi p0 = some n)
    (h : Atoi p1 = none) :
    pslistRow p0 p1 s = .error (Err.parsePpid p1) := by
  unfold pslistRow
  rw [h0, h]

theorem pslistRow_ok (p0 p1 : Str) (s : Store) (pid ppid : Int) (h0 : Atoi p0 = some pid)
    (h1 : Atoi p1 = some ppid) :
    pslistRow p0 p1 s
      = .ok (match s.lookup (toUint pid), s.lookup (toUint ppid) with
          | some child, some parent =>
            { s with heap :=
                s.heap.modify (fun proc => { proc with ParentProc := some parent }) child }
          | _, _ => s) := by
  unfold pslistRow
  rw [h0, h1]
  simp only []
  cases hc : s.lookup (toUint pid) <;> cases hp : s.lookup (toUint ppid) <;> simp

theorem runRows_error_iff (step : Spec.Row → Store → Except Err Store) (bad : Spec.Row → Prop)
    (hbad : ∀ r s, bad r → ∃ err, step r s = .error err)
    (hgood : ∀ r s, ¬ bad r → ∃ s1, step r s = .ok s1)
    (rs : List Spec.Row) (s : Store) :
    (runRows step rs s).1 ≠ none ↔ ∃ r ∈ rs, bad r := by
  induction rs generalizing s with
  | nil => simp [runRows]
  | cons r rest ih =>
    by_cases hb : bad r
    · obtain ⟨err, he⟩ := hbad r s hb
      simp only [runRows, he]
      constructor
      · intro _
        exact ⟨r, by simp, hb⟩
      · intro _
        simp
    · obtain ⟨s1, he⟩ := hgood r s hb
      simp only [runRows, he, ih s1, List.mem_cons]
      constructor
      · rintro ⟨x, hx, hbx⟩
        exact ⟨x, Or.inr hx, hbx⟩
      · rintro ⟨x, hx | hx, hbx⟩
        · subst hx
          exact absurd hbx hb
        · exact ⟨x, hx, hbx⟩

theorem runRows_cmdline_error_iff (rs : List Spec.Row) (s : Store) :
    (runRows cmdlineStep rs s).1 ≠ none ↔ ∃ r ∈ rs, Atoi r.1 = none := by
  apply runRows_error_iff cmdlineStep (fun r => Atoi r.1 = none)
  · intro r s h
    exact ⟨_, cmdlineRow_error r.1 r.2.1 r.2.2 s h⟩
  · intro r s h
    cases hn : Atoi r.1 with
    | none => exact absurd hn h
    | some n => exact ⟨_, cmdlineRow_ok r.1 r.2.1 r.2.2 s n hn⟩

theorem runRows_pslist_error_iff (rs : List Spec.Row) (s : Store) :
    (runRows pslistStep rs s).1 ≠ none ↔ ∃ r ∈ rs, Atoi r.1 = none ∨ Atoi r.2.1 = none := by
  apply runRows_error_iff pslistStep (fun r => Atoi r.1 = none ∨ Atoi r.2.1 = none)
  · intro r s h
    cases h0 : Atoi r.1 with
    | none => exact ⟨_, pslistRow_error_pid r.1 r.2.1 s h0⟩
    | some n =>
      rcases h with h | h
      · rw [h0] at h; cases h
      · exact ⟨_, pslistRow_error_ppid r.1 r.2.1 s n h0 h⟩
  · intro r s h
    cases h0 : Atoi r.1 with
    | none => exact absurd (Or.inl h0) h
    | some n =>
      cases h1 : Atoi r.2.1 with
      | none => exact absurd (Or.inr h1) h
      | some m => exact ⟨_, pslistRow_ok r.1 r.2.1 s n m h0 h1⟩

theorem Run_ok_eq (cmdline pslist : List Str) (s : Store) :
    ProcessesPlugin.Run (.ok cmdline) (.ok pslist) s
      = match runRows cmdlineStep (Spec.rows isCmdlineHeader cmdline) s with
        | (some err, s1) => (some err, s1)
        | (none, s1) => runRows pslistStep (Spec.rows isPslistHeader pslist) s1 := by
  simp only [ProcessesPlugin.Run, scanCmdline_eq_rows, scanPslist_eq_rows]

/-! ## proc.go: the store after pass one and pass two -/

theorem Store.empty_Keyed : Store.empty.Keyed := by
  intro p a h
  simp [Store.empty, Store.lookup] at h

theorem Store.empty_NoParents : Store.empty.NoParents := by
  intro proc h
  simp [Store.empty] at h

theorem cmdlineStep_inv (r : Spec.Row) (s s1 : Store) (hk : s.Keyed) (hn : s.NoParents)
    (h : cmdlineStep r s = .ok s1) : s1.Keyed ∧ s1.NoParents := by
  unfold cmdlineStep at h
  cases hA : Atoi r.1 with
  | none =>
    rw [cmdlineRow_error _ _ _ _ hA] at h
    cases h
  | some n =>
    rw [cmdlineRow_ok _ _ _ _ n hA] at h
    injection h with h
    subst h
    constructor
    · intro p a hl
      simp only [Store.lookup, List.lookup_cons] at hl
      by_cases hp : p = toUint n
      · subst hp
        simp only [beq_self_eq_true, Option.some.injEq] at hl
        subst hl
        exact ⟨_, List.getElem?_concat_length _ _, rfl⟩
      · have hb : (p == toUint n) = false := by simpa using hp
        rw [hb] at hl
        obtain ⟨proc, hproc, hpid⟩ := hk p a hl
        have hlt : a < s.heap.length := by
          rcases List.getElem?_eq_some_iff.mp hproc with ⟨hlt, _⟩
          exact hlt
        exact ⟨proc, by simp only [List.getElem?_append_left hlt, hproc], hpid⟩
    · intro proc hmem
      simp only [List.mem_append, List.mem_singleton] at hmem
      rcases hmem with hmem | hmem
      · exact hn proc hmem
      · subst hmem
        rfl

theorem runRows_cmdline_inv (rs : List Spec.Row) (s : Store) (hk : s.Keyed)
    (hn : s.NoParents) :
    (runRows cmdlineStep rs s).2.Keyed ∧ (runRows cmdlineStep rs s).2.NoParents := by
  induction rs generalizing s with
  | nil => exact ⟨hk, hn⟩
  | cons r rest ih =>
    simp only [runRows]
    cases hstep : cmdlineStep r s with
    | error err => exact ⟨hk, hn⟩
    | ok s1 =>
      obtain ⟨hk1, hn1⟩ := cmdlineStep_inv r s s1 hk hn hstep
      exact ih s1 hk1 hn1

theorem edgeOf_congr (s s1 : Store) (h : s1.PIDToProcess = s.PIDToProcess) (r : Spec.Row) :
    Spec.edgeOf s1 r = Spec.edgeOf s r := by
  simp only [Spec.edgeOf, Store.lookup, h]

theorem lastParent_congr (s s1 : Store) (h : s1.PIDToProcess = s.PIDToProcess)
    (rs : List Spec.Row) (p : Nat) :
    Spec.lastParent s1 rs p = Spec.lastParent s rs p := by
  have : Spec.edgeOf s1 = Spec.edgeOf s := funext (edgeOf_congr s s1 h)
  simp only [Spec.lastParent, this]

theorem lastParent_nil (s : Store) (p : Nat) : Spec.lastParent s [] p = none := rfl

theorem lastParent_cons (s : Store) (r : Spec.Row) (rs : List Spec.Row) (p : Nat) :
    Spec.lastParent s (r :: rs) p
      = match Spec.lastParent s rs p with
        | some q => some q
        | none =>
          match Spec.edgeOf s r with
          | some e => if e.1 = p then some e.2 else none
          | none => none := by
  unfold Spec.lastParent
  cases he : Spec.edgeOf s r with
  | none => 
    simp only [List.filterMap_cons, he]
    cases (List.filter (fun e => decide (e.1 = p)) (List.filterMap (Spec.edgeOf s) rs)).getLast?
      <;> rfl
  | some e =>
    simp only [List.filterMap_cons, he, List.filter_cons]
    by_cases hp : e.1 = p
    · simp only [hp, decide_True, if_true, List.getLast?_cons]
      cases (List.filter (fun e => decide (e.1 = p)) (List.filterMap (Spec.edgeOf s) rs)).getLast?
        <;> simp
    · simp only [hp, decide_False, Bool.false_eq_true, if_false]
      cases (List.filter (fun e => decide (e.1 = p)) (List.filterMap (Spec.edgeOf s) rs)).getLast?
        <;> rfl

theorem Process.eta (proc : Process) :
    ({ proc with ParentProc := proc.ParentProc } : Process) = proc := by
  cases proc
  rfl

theorem pslistStep_effect (r : Spec.Row) (s : Store) (hk : s.Keyed) (pid ppid : Int)
    (h0 : Atoi r.1 = some pid) (h1 : Atoi r.2.1 = some ppid) :
    ∃ s1, pslistStep r s = .ok s1 ∧ s1.PIDToProcess = s.PIDToProcess ∧ s1.Keyed
      ∧ ∀ p a proc, s.lookup p = some a → s.heap[a]? = some proc →
          s1.heap[a]?
            = some { proc with ParentProc := parentAfterRow s r p proc.ParentProc } := by
  unfold pslistStep
  rw [pslistRow_ok r.1 r.2.1 s pid ppid h0 h1]
  cases hc : s.lookup (toUint pid) with
  | none =>
    refine ⟨s, by cases s.lookup (toUint ppid) <;> rfl, rfl, hk, ?_⟩
    intro p a proc _ hproc
    simp [parentAfterRow, Spec.edgeOf, h0, h1, hc, hproc, Process.eta]
  | some child =>
    cases hp : s.lookup (toUint ppid) with
    | none =>
      refine ⟨s, rfl, rfl, hk, ?_⟩
      intro p a proc _ hproc
      simp [parentAfterRow, Spec.edgeOf, h0, h1, hp, hproc, Process.eta]
    | some parent =>
      have hedge : Spec.edgeOf s r = some (toUint pid, toUint ppid) := by
        simp [Spec.edgeOf, h0, h1, hc, hp]
      have hiff : ∀ p a, s.lookup p = some a → (child = a ↔ toUint pid = p) := by
        intro p a hl
        constructor
        · intro e
          subst e
          obtain ⟨x, hx, hxp⟩ := hk (toUint pid) child hc
          obtain ⟨y, hy, hyp⟩ := hk p child hl
          rw [hx] at hy
          injection hy with hy
          subst hy
          rw [← hxp, hyp]
        · intro e
          subst e
          rw [hc] at hl
          injection hl
      refine ⟨_, rfl, rfl, ?_, ?_⟩
      · intro p a hl
        obtain ⟨proc, hproc, hpid⟩ := hk p a hl
        by_cases e : child = a
        · refine ⟨{ proc with ParentProc := some parent }, ?_, hpid⟩
          subst e
          simp [List.getElem?_modify_eq, hproc]
        · exact ⟨proc, by simp [List.getElem?_modify_ne _ _ e, hproc], hpid⟩
      · intro p a proc hl hproc
        simp only [parentAfterRow, hedge]
        by_cases e : child = a
        · have hpp : toUint pid = p := (hiff p a hl).mp e
          subst e
          simp [List.getElem?_modify_eq, hproc, hpp, hp]
        · have hpp : ¬ toUint pid = p := fun h => e ((hiff p a hl).mpr h)
          simp [List.getElem?_modify_ne _ _ e, hproc, hpp, Process.eta]

theorem runRows_pslist_spec (rs : List Spec.Row) (s : Store) (hk : s.Keyed)
    (hnum : ∀ r ∈ rs, Atoi r.1 ≠ none ∧ Atoi r.2.1 ≠ none) :
    ∃ s2, runRows pslistStep rs s = (none, s2) ∧ s2.PIDToProcess = s.PIDToProcess
      ∧ ∀ p a proc, s.lookup p = some a → s.heap[a]? = some proc →
          s2.heap[a]? = some { proc with ParentProc := parentAfter s rs p proc.ParentProc } := by
  induction rs generalizing s with
  | nil =>
    refine ⟨s, rfl, rfl, ?_⟩
    intro p a proc _ hproc
    simp [parentAfter, lastParent_nil, hproc, Process.eta]
  | cons r rest ih =>
    obtain ⟨hr0, hr1⟩ := hnum r (by simp)
    cases h0 : Atoi r.1 with
    | none => exact absurd h0 hr0
    | some pid =>
      cases h1 : Atoi r.2.1 with
      | none => exact absurd h1 hr1
      | some ppid =>
        obtain ⟨s1, hstep, hmap, hk1, heff⟩ := pslistStep_effect r s hk pid ppid h0 h1
        obtain ⟨s2, hrun, hmap2, hfin⟩ := ih s1 hk1 (fun x hx => hnum x (by simp [hx]))
        have hlook : ∀ k, s1.lookup k = s.lookup k := by
          intro k
          simp only [Store.lookup, hmap]
        refine ⟨s2, by simp only [runRows, hstep, hrun], hmap2.trans hmap, ?_⟩
        intro p a proc hl hproc
        have h1a := heff p a proc hl hproc
        have h2a := hfin p a _ ((hlook p).trans hl) h1a
        rw [h2a]
        simp only [parentAfter, parentAfterRow, lastParent_congr s s1 hmap, lastParent_cons,
          hlook]
        cases hlast : Spec.lastParent s rest p with
        | some q => rfl
        | none =>
          cases hedge : Spec.edgeOf s r with
          | none => simp
          | some e =>
            by_cases hep : e.1 = p
            · simp [hep]
            · simp [hep]

theorem lastParent_some (s : Store) (rs : List Spec.Row) (p q : Nat)
    (h : Spec.lastParent s rs p = some q) :
    (s.lookup p).isSome ∧ (s.lookup q).isSome := by
  unfold Spec.lastParent at h
  obtain ⟨e, he, heq⟩ := Option.map_eq_some'.mp h
  have hmem := List.mem_of_getLast?_eq_some he
  obtain ⟨hmem, hp⟩ := List.mem_filter.mp hmem
  obtain ⟨r, _, hr⟩ := List.mem_filterMap.mp hmem
  have hp : e.1 = p := by simpa using hp
  unfold Spec.edgeOf at hr
  split at hr
  · split at hr
    · rename_i hboth
      injection hr with hr
      subst hr
      subst heq
      subst hp
      exact hboth
    · cases hr
  · cases hr

theorem Run_from_empty (cmdline pslist : List Str)
    (hcmd : ∀ r ∈ Spec.rows isCmdlineHeader cmdline, Atoi r.1 ≠ none)
    (hps : ∀ r ∈ Spec.rows isPslistHeader pslist, Atoi r.1 ≠ none ∧ Atoi r.2.1 ≠ none) :
    ∃ s1 s2, ProcessesPlugin.scanCmdline cmdline false Store.empty = (none, s1)
      ∧ ProcessesPlugin.Run (.ok cmdline) (.ok pslist) Store.empty = (none, s2)
      ∧ s2.PIDToProcess = s1.PIDToProcess
      ∧ ∀ p a, s1.lookup p = some a →
          s2.heap[a]? = some { ImageName := (s2.heap[a]?.map Process.ImageName).getD [],
                               PID := p,
                               Args := (s2.heap[a]?.map Process.Args).getD [],
                               ParentProc := parentAfter s1 (Spec.rows isPslistHeader pslist)
                                 p none } := by
  have herr := runRows_cmdline_error_iff (Spec.rows isCmdlineHeader cmdline) Store.empty
  obtain ⟨hk, hn⟩ := runRows_cmdline_inv (Spec.rows isCmdlineHeader cmdline) Store.empty
    Store.empty_Keyed Store.empty_NoParents
  rcases hrun : runRows cmdlineStep (Spec.rows isCmdlineHeader cmdline) Store.empty
    with ⟨e, s1⟩
  rw [hrun] at herr hk hn
  have he : e = none := by
    by_contra hne
    obtain ⟨r, hr, hbad⟩ := herr.mp hne
    exact hcmd r hr hbad
  subst he
  obtain ⟨s2, hrun2, hmap, hfin⟩ :=
    runRows_pslist_spec (Spec.rows isPslistHeader pslist) s1 hk hps
  refine ⟨s1, s2, ?_, ?_, hmap, ?_⟩
  · rw [scanCmdline_eq_rows, hrun]
  · rw [Run_ok_eq, hrun]
    exact hrun2
  · intro p a hl
    obtain ⟨proc, hproc, hpid⟩ := hk p a hl
    have hnone : proc.ParentProc = none := hn proc (List.getElem?_mem hproc)
    have := hfin p a proc hl hproc
    rw [this]
    simp [hpid, hnone]

/-! ## Lemmas for the invoker and the gate -/

theorem FilesPlugin.Run_append (filescan : Artifact) (Profile : Str) (FileList : List FileInfo) :
    FilesPlugin.Run filescan Profile FileList
      = ((FilesPlugin.Run filescan Profile []).1,
          FileList ++ (FilesPlugin.Run filescan Profile []).2) := by
  cases filescan with
  | error err => simp [FilesPlugin.Run]
  | ok lines =>
    rcases split_at_header lines with hno | ⟨pre, hd, post, e, hpre, hhd⟩
    · simp [FilesPlugin.Run_no_header Profile lines _ hno]
    · subst e
      simp [FilesPlugin.Run_header Profile pre hd post _ hpre hhd]

theorem Atoi_range (s : Str) (n : Int) (h : Atoi s = some n) :
    -(2 ^ 63 : Int) ≤ n ∧ n < (2 ^ 63 : Int) := by
  unfold Atoi at h
  simp only at h
  split at h
  · cases h
  · split at h
    · cases h
    · rename_i m _
      split at h
      · split at h
        · injection h with h
          subst h
          constructor <;> omega
        · cases h
      · split at h
        · injection h with h
          subst h
          constructor <;> omega
        · cases h

theorem toUint_of_nonneg (n : Int) (h0 : 0 ≤ n) (h1 : n < (2 ^ 63 : Int)) :
    (toUint n : Int) = n := by
  unfold toUint
  have : n % (2 ^ 64 : Int) = n := Int.emod_eq_of_lt h0 (by omega)
  rw [this]
  exact Int.toNat_of_nonneg h0

theorem toUint_of_neg (n : Int) (h0 : n < 0) (h1 : -(2 ^ 63 : Int) ≤ n) :
    (toUint n : Int) = n + (2 ^ 64 : Int) := by
  unfold toUint
  have h2 : n % (2 ^ 64 : Int) = n + (2 ^ 64 : Int) := by
    rw [← Int.add_emod_self]
    exact Int.emod_eq_of_lt (by omega) (by omega)
  rw [h2]
  exact Int.toNat_of_nonneg (by omega)

theorem RunVolatilityPluginAndWriteResult_no_dump (cfg : Config) (env : Env) (args : List Str)
    (resultFilepath : Str) (isOverride : Bool) (hno : "-o".data ∉ args) :
    RunVolatilityPluginAndWriteResult cfg env args resultFilepath isOverride
      = match env.openFile (destination cfg env resultFilepath) (GetFileOpenFlag isOverride) with
        | some err =>
          (some (Err.openFailed (destination cfg env resultFilepath) err),
            [Event.openFile (destination cfg env resultFilepath) (GetFileOpenFlag isOverride)])
        | none =>
          (env.runCmd cfg.VolRunConfig.Runner (commandArgs cfg env args)
              (some (destination cfg env resultFilepath)),
            [Event.openFile (destination cfg env resultFilepath) (GetFileOpenFlag isOverride),
             Event.logExecuting (decide (resultFilepath.length = 0))
               (Join (cfg.VolRunConfig.Runner :: commandArgs cfg env args) " ".data)
               (destination cfg env resultFilepath),
             Event.run cfg.VolRunConfig.Runner (commandArgs cfg env args)
               (some (destination cfg env resultFilepath)),
             Event.close (destination cfg env resultFilepath)]) := by
  have hc : args.contains "-o".data = false := by
    simpa using hno
  unfold RunVolatilityPluginAndWriteResult destination
  simp only [hc, Bool.not_false, if_true]
  by_cases h0 : resultFilepath.length = 0
  · simp only [h0, if_true, decide_True]
  · simp only [h0, if_false, decide_False]

theorem RunVolatilityPluginAndWriteResult_dump (cfg : Config) (env : Env) (rest : List Str)
    (resultFilepath : Str) (isOverride : Bool) (ho : "-o".data ∈ rest) :
    RunVolatilityPluginAndWriteResult cfg env (cfg.VolRunConfig.Binary :: rest) resultFilepath
        isOverride
      = (env.runCmd cfg.VolRunConfig.Runner (cfg.VolRunConfig.Binary :: rest) none,
          [Event.logExecuting false
            (Join (cfg.VolRunConfig.Runner :: cfg.VolRunConfig.Binary :: rest) " ".data)
            resultFilepath,
           Event.run cfg.VolRunConfig.Runner (cfg.VolRunConfig.Binary :: rest) none]) := by
  have hc : (cfg.VolRunConfig.Binary :: rest).contains "-o".data = true := by
    simp [ho]
  unfold RunVolatilityPluginAndWriteResult
  simp only [hc, commandArgs_cons_self, Bool.not_true, Bool.false_eq_true, if_false]

theorem DumpFile_valid (cfg : Config) (env : Env) (dumpFile : FileInfo) (outputFolder : Str)
    (h : dumpFile.PhysicalAddrOffset ≠ [] ∨ dumpFile.VirtualAddrOffset ≠ []) :
    FilesPlugin.DumpFile cfg env dumpFile outputFolder
      = RunVolatilityPluginAndWriteResult cfg env (dumpArgs cfg dumpFile outputFolder) [] true := by
  unfold FilesPlugin.DumpFile dumpArgs
  by_cases hp : dumpFile.PhysicalAddrOffset = []
  · have hv : dumpFile.VirtualAddrOffset ≠ [] := by
      rcases h with h | h
      · exact absurd hp h
      · exact h
    simp [hp, hv]
  · simp [hp]

theorem DumpFile_invalid (cfg : Config) (env : Env) (dumpFile : FileInfo) (outputFolder : Str)
    (hp : dumpFile.PhysicalAddrOffset = []) (hv : dumpFile.VirtualAddrOffset = []) :
    FilesPlugin.DumpFile cfg env dumpFile outputFolder
      = (some (Err.emptyOffset dumpFile.Path), []) := by
  simp [FilesPlugin.DumpFile, hp, hv]

theorem dumpArgs_eq (cfg : Config) (dumpFile : FileInfo) (outputFolder : Str) :
    dumpArgs cfg dumpFile outputFolder
      = cfg.VolRunConfig.Binary :: (dumpArgs cfg dumpFile outputFolder).tail
    ∧ "-o".data ∈ (dumpArgs cfg dumpFile outputFolder).tail := by
  simp [dumpArgs]

theorem DumpFile_valid_eq (cfg : Config) (env : Env) (dumpFile : FileInfo) (outputFolder : Str)
    (h : dumpFile.PhysicalAddrOffset ≠ [] ∨ dumpFile.VirtualAddrOffset ≠ []) :
    FilesPlugin.DumpFile cfg env dumpFile outputFolder
      = (env.runCmd cfg.VolRunConfig.Runner (dumpArgs cfg dumpFile outputFolder) none,
          [Event.logExecuting false
            (Join (cfg.VolRunConfig.Runner :: dumpArgs cfg dumpFile outputFolder) " ".data) [],
           Event.run cfg.VolRunConfig.Runner (dumpArgs cfg dumpFile outputFolder) none]) := by
  rw [DumpFile_valid cfg env dumpFile outputFolder h]
  obtain ⟨e, ho⟩ := dumpArgs_eq cfg dumpFile outputFolder
  have := RunVolatilityPluginAndWriteResult_dump cfg env
    (dumpArgs cfg dumpFile outputFolder).tail [] true ho
  rw [← e] at this
  exact this

theorem runRows_cmdline_heap (rs : List Spec.Row) (s : Store) :
    ∀ proc ∈ (runRows cmdlineStep rs s).2.heap,
      proc ∈ s.heap ∨ ∃ r ∈ rs, ∃ n, Atoi r.1 = some n ∧ proc.PID = toUint n := by
  induction rs generalizing s with
  | nil =>
    intro proc h
    exact Or.inl h
  | cons r rest ih =>
    intro proc h
    simp only [runRows] at h
    cases hA : Atoi r.1 with
    | none =>
      have : cmdlineStep r s = .error (Err.parsePid r.1) := cmdlineRow_error _ _ _ _ hA
      rw [this] at h
      exact Or.inl h
    | some n =>
      have hstep := cmdlineRow_ok r.1 r.2.1 r.2.2 s n hA
      change cmdlineStep r s = _ at hstep
      rw [hstep] at h
      rcases ih _ proc h with hin | ⟨x, hx, m, hm, hpid⟩
      · simp only [List.mem_append, List.mem_singleton] at hin
        rcases hin with hin | hin
        · exact Or.inl hin
        · refine Or.inr ⟨r, by simp, n, hA, ?_⟩
          subst hin
          rfl
      · exact Or.inr ⟨x, by simp [hx], m, hm, hpid⟩

/-! ## Lemmas on short lines and on renaming -/

theorem rowOf_short (x : Str) (hx : (Fields x).length < 3) : Spec.rowOf x = none := by
  unfold Spec.rowOf
  match hF : Fields x with
  | [] => rfl
  | [_] => rfl
  | [_, _] => rfl
  | _ :: _ :: _ :: _ =>
    rw [hF] at hx
    simp at hx
    omega

theorem fileRecordOfLine_short (Profile : Str) (x : Str) (hx : (Fields x).length < 3) :
    Spec.fileRecordOfLine Profile x = none := by
  unfold Spec.fileRecordOfLine
  rw [if_neg]
  omega

theorem rows_insert_short (isHeader : Str → Bool) (x : Str) (hx : (Fields x).length < 3)
    (pre : List Str) (hd : Str) (a b : List Str) (hpre : ∀ l ∈ pre, isHeader l = false)
    (hhd : isHeader hd = true) :
    Spec.rows isHeader (pre ++ hd :: (a ++ x :: b)) = Spec.rows isHeader (pre ++ hd :: (a ++ b)) := by
  unfold Spec.rows
  rw [afterHeader_append isHeader pre hd _ hpre hhd, afterHeader_append isHeader pre hd _ hpre hhd]
  simp [List.filterMap_append, List.filterMap_cons, rowOf_short x hx]

theorem renameCallback_renames (env : RenameEnv) (matchSuffix newSuffix : Str)
    (entry : WalkEntry) (old new : Str)
    (h : (old, new) ∈ (renameCallback env matchSuffix newSuffix entry).2) :
    entry.IsDir = false ∧ HasSuffix entry.Name matchSuffix = true ∧ old = entry.path
      ∧ new = env.Join (env.Dir entry.path) (newName entry.Name newSuffix) := by
  unfold renameCallback at h
  split at h
  · simp at h
  · split at h
    · rename_i hcond
      simp only [Bool.and_eq_true, Bool.not_eq_true'] at hcond
      simp only at h
      cases hren : env.Rename entry.path
          (env.Join (env.Dir entry.path) (newName entry.Name newSuffix)) <;>
        · rw [hren] at h
          simp only [List.mem_singleton, Prod.mk.injEq] at h
          exact ⟨hcond.1, hcond.2, h.1, h.2⟩
    · simp at h

theorem RenameDumpedFilesExtention_renames (env : RenameEnv) (matchSuffix newSuffix : Str)
    (visits : List WalkEntry) (old new : Str)
    (h : (old, new) ∈ (FilesPlugin.RenameDumpedFilesExtention env matchSuffix newSuffix visits).2) :
    ∃ entry ∈ visits, entry.IsDir = false ∧ HasSuffix entry.Name matchSuffix = true
      ∧ old = entry.path
      ∧ new = env.Join (env.Dir entry.path) (newName entry.Name newSuffix) := by
  induction visits with
  | nil => simp [FilesPlugin.RenameDumpedFilesExtention] at h
  | cons entry rest ih =>
    unfold FilesPlugin.RenameDumpedFilesExtention at h
    rcases hcb : renameCallback env matchSuffix newSuffix entry with ⟨e, renames⟩
    rw [hcb] at h
    have hfirst : ∀ o n, (o, n) ∈ renames → ∃ entry1 ∈ entry :: rest, entry1.IsDir = false
        ∧ HasSuffix entry1.Name matchSuffix = true ∧ o = entry1.path
        ∧ n = env.Join (env.Dir entry1.path) (newName entry1.Name newSuffix) := by
      intro o n hmem
      have hm : (o, n) ∈ (renameCallback env matchSuffix newSuffix entry).2 := by
        rw [hcb]
        exact hmem
      exact ⟨entry, by simp, renameCallback_renames env matchSuffix newSuffix entry o n hm⟩
    cases e with
    | some err => exact hfirst old new h
    | none =>
      simp only [List.mem_append] at h
      rcases h with h | h
      · exact hfirst old new h
      · obtain ⟨entry1, hmem, hrest⟩ := ih h
        exact ⟨entry1, by simp [hmem], hrest⟩

/-! ## DumpFiles: the failures carried and the spawns made -/

theorem failuresOf_joinErrors (agg : Option Err) (err : Err) :
    Spec.failuresOf (some (joinErrors agg err)) = Spec.failuresOf agg ++ [err] := by
  cases agg <;> rfl

theorem DumpFile_of_ok (cfg : Config) (env : Env) (f : FileInfo) (outputFolder : Str)
    (hok : ∀ runner args redirect, env.runCmd runner args redirect = none) :
    (FilesPlugin.DumpFile cfg env f outputFolder).1 = invalidErr f
    ∧ ((FilesPlugin.DumpFile cfg env f outputFolder).2.filter Spec.isRun).length
        = (validMark f).toList.length := by
  by_cases hp : f.PhysicalAddrOffset = []
  · by_cases hv : f.VirtualAddrOffset = []
    · rw [DumpFile_invalid cfg env f outputFolder hp hv]
      simp [invalidErr, validMark, Spec.isInvalid, hp, hv]
    · rw [DumpFile_valid_eq cfg env f outputFolder (Or.inr hv), hok]
      simp [invalidErr, validMark, Spec.isInvalid, hp, hv, Spec.isRun]
  · rw [DumpFile_valid_eq cfg env f outputFolder (Or.inl hp), hok]
    simp [invalidErr, validMark, Spec.isInvalid, hp, Spec.isRun]

theorem DumpFiles.foldl_failures (cfg : Config) (envs : Nat → Env) (dumpFiles : List FileInfo)
    (outputFolder : Str) (order : List Nat)
    (hok : ∀ i runner args redirect, (envs i).runCmd runner args redirect = none)
    (st : DumpState) :
    Spec.failuresOf (order.foldl
        (fun st i => FilesPlugin.DumpFiles.task cfg (envs i) dumpFiles outputFolder i st)
        st).aggregatedError
      = Spec.failuresOf st.aggregatedError
          ++ order.filterMap (fun i => (dumpFiles[i]?).bind invalidErr)
    ∧ ((order.foldl
        (fun st i => FilesPlugin.DumpFiles.task cfg (envs i) dumpFiles outputFolder i st)
        st).events.filter Spec.isRun).length
      = (st.events.filter Spec.isRun).length
          + (order.filterMap (fun i => (dumpFiles[i]?).bind validMark)).length := by
  induction order generalizing st with
  | nil => simp
  | cons i rest ih =>
    simp only [List.foldl_cons]
    obtain ⟨h1, h2⟩ := ih (FilesPlugin.DumpFiles.task cfg (envs i) dumpFiles outputFolder i st)
    rw [h1, h2]
    unfold FilesPlugin.DumpFiles.task
    cases hf : dumpFiles[i]? with
    | none => simp [List.filterMap_cons, hf]
    | some f =>
      obtain ⟨e1, e2⟩ := DumpFile_of_ok cfg (envs i) f outputFolder (hok i)
      simp only [List.filterMap_cons, hf, Option.some_bind]
      rcases hd : FilesPlugin.DumpFile cfg (envs i) f outputFolder with ⟨err, evs⟩
      rw [hd] at e1 e2
      simp only at e1 e2
      subst e1
      simp only [List.filter_append, List.length_append, e2]
      unfold invalidErr validMark
      by_cases hinv : Spec.isInvalid f = true
      · simp [hinv, failuresOf_joinErrors]
      · simp [hinv]
        omega

theorem range_filterMap_getElem? {α β : Type} (l : List α) (g : α → Option β) :
    (List.range l.length).filterMap (fun i => (l[i]?).bind g) = l.filterMap g := by
  induction l using List.reverseRecOn with
  | nil => rfl
  | append_singleton l a ih =>
    rw [List.length_append, List.length_singleton, List.range_succ, List.filterMap_append,
      List.filterMap_append]
    have h1 : (List.range l.length).filterMap (fun i => ((l ++ [a])[i]?).bind g)
        = (List.range l.length).filterMap (fun i => (l[i]?).bind g) := by
      apply List.filterMap_congr
      intro i hi
      rw [List.getElem?_append_left (List.mem_range.mp hi)]
    rw [h1, ih]
    simp [List.filterMap_cons, List.getElem?_concat_length]

theorem filter_isInvalid_eq (l : List FileInfo) :
    l.filterMap invalidErr = (l.filter Spec.isInvalid).map (fun f => Err.emptyOffset f.Path) := by
  induction l with
  | nil => rfl
  | cons f rest ih =>
    by_cases h : Spec.isInvalid f = true
    · simp [List.filterMap_cons, List.filter_cons, invalidErr, h, ih]
    · simp [List.filterMap_cons, List.filter_cons, invalidErr, h, ih]

theorem validMark_length (l : List FileInfo) :
    (l.filterMap validMark).length = l.length - (l.filter Spec.isInvalid).length := by
  induction l with
  | nil => rfl
  | cons f rest ih =>
    have hle : (rest.filter Spec.isInvalid).length ≤ rest.length := List.length_filter_le _ _
    by_cases h : Spec.isInvalid f = true
    · simp [List.filterMap_cons, List.filter_cons, validMark, h, ih]
    · simp [List.filterMap_cons, List.filter_cons, validMark, h, ih]
      omega

/-! ## Claims -/

/-- C3: `FilesPlugin.Run` appends to the file list exactly one record per line
that comes after the first line containing "Offset", "Name" and "Size", is
non-empty and has at least 3 whitespace-delimited fields, in input order, with
the path the second field and the offset the first field; the lines up to and
including the header yield nothing; without a header line nothing is appended;
the line "Offset    Name    Size    Cached" is a header, and the header test of
the code holds exactly when all three substrings occur. -/
theorem C3_FilesPlugin_Run_records :
    (∀ (pre : List Str) (hd : Str) (post : List Str) (Profile : Str) (FileList : List FileInfo),
      (∀ l ∈ pre, ¬ Spec.IsFilescanHeader l) → Spec.IsFilescanHeader hd →
      FilesPlugin.Run (.ok (pre ++ hd :: post)) Profile FileList
        = (none, FileList ++ post.filterMap (Spec.fileRecordOfLine Profile)))
    ∧ (∀ (lines : List Str) (Profile : Str) (FileList : List FileInfo),
      (∀ l ∈ lines, ¬ Spec.IsFilescanHeader l) →
      FilesPlugin.Run (.ok lines) Profile FileList = (none, FileList))
    ∧ isFilescanHeader "Offset    Name    Size    Cached".data = true
    ∧ (∀ line : Str, isFilescanHeader line = true ↔
        ("Offset".data <:+: line ∧ "Name".data <:+: line ∧ "Size".data <:+: line)) :=
  ⟨fun pre hd post Profile FileList hpre hhd =>
      FilesPlugin.Run_header Profile pre hd post FileList hpre hhd,
   fun lines Profile FileList h => FilesPlugin.Run_no_header Profile lines FileList h,
   by decide,
   fun line => isFilescanHeader_iff line⟩

/-- C3, at a concrete artifact: two lines before the header (one of them with
only two of the three substrings), the header, then a row, a blank line, a line
of two fields and a second row. -/
theorem C3_FilesPlugin_Run_records_witness :
    FilesPlugin.Run
      (.ok ["Volatility 3".data, "Offset Name".data,
            "Offset    Name    Size    Cached".data,
            "0x1a  \\Win\\a.dll 216".data, [], "0x2b \\b".data,
            "0x3c \\c.sys 8 x".data])
      "win7".data []
      = (none,
          [{ Path := "\\Win\\a.dll".data, VirtualAddrOffset := [],
             PhysicalAddrOffset := "0x1a".data },
           { Path := "\\c.sys".data, VirtualAddrOffset := [],
             PhysicalAddrOffset := "0x3c".data }]) :=
  (C3_FilesPlugin_Run_records.1 ["Volatility 3".data, "Offset Name".data]
      "Offset    Name    Size    Cached".data
      ["0x1a  \\Win\\a.dll 216".data, [], "0x2b \\b".data, "0x3c \\c.sys 8 x".data]
      "win7".data [] (by decide) (by decide)).trans (by decide)

/-- C7: every record `FilesPlugin.Run` creates has exactly one non-empty offset
field, holding the first field of a line of the artifact: the virtual offset
when the profile is "win10", the physical offset for every other profile, the
other offset field being empty. -/
theorem C7_file_record_one_offset (lines : List Str) (Profile : Str)
    (FileList : List FileInfo) (r : FileInfo)
    (hr : r ∈ (FilesPlugin.Run (.ok lines) Profile FileList).2.drop FileList.length) :
    ∃ line ∈ lines, ∃ p0 rest, Fields line = p0 :: rest ∧ p0 ≠ [] ∧
      ((Profile = "win10".data ∧ r.VirtualAddrOffset = p0 ∧ r.PhysicalAddrOffset = []) ∨
       (Profile ≠ "win10".data ∧ r.PhysicalAddrOffset = p0 ∧ r.VirtualAddrOffset = [])) := by
  rcases split_at_header lines with hno | ⟨pre, hd, post, e, hpre, hhd⟩
  · rw [FilesPlugin.Run_no_header Profile lines FileList hno] at hr
    simp at hr
  · subst e
    rw [FilesPlugin.Run_header Profile pre hd post FileList hpre hhd] at hr
    simp only [List.drop_left] at hr
    obtain ⟨line, hmem, hrec⟩ := List.mem_filterMap.mp hr
    refine ⟨line, by simp [hmem], ?_⟩
    unfold Spec.fileRecordOfLine at hrec
    split at hrec
    · rename_i hcond
      cases hF : Fields line with
      | nil => simp [hF] at hcond
      | cons p0 rest =>
        have hne : p0 ≠ [] := Fields_ne_nil line p0 (by simp [hF])
        refine ⟨p0, rest, rfl, hne, ?_⟩
        simp only [hF, Option.some.injEq] at hrec
        subst hrec
        by_cases hp : Profile = "win10".data <;> simp [hp]
    · simp at hrec

/-- C7, at a concrete artifact read under the profile "win10". -/
theorem C7_file_record_one_offset_witness :
    ∃ line ∈ ["Offset Name Size".data, "0x1a \\a.dll 216".data],
      ∃ p0 rest, Fields line = p0 :: rest ∧ p0 ≠ [] ∧
      (("win10".data = "win10".data ∧ "0x1a".data = p0 ∧ ([] : Str) = []) ∨
       ("win10".data ≠ "win10".data ∧ ([] : Str) = p0 ∧ "0x1a".data = [])) :=
  C7_file_record_one_offset ["Offset Name Size".data, "0x1a \\a.dll 216".data]
    "win10".data []
    { Path := "\\a.dll".data, VirtualAddrOffset := "0x1a".data, PhysicalAddrOffset := [] }
    (by decide)

/-- C1, as stated, fails: with the force flag unset, a directory that holds an
entry but cannot be opened makes `IsRunRequired` return true, not false. -/
theorem C1_IsRunRequired_counterexample :
    exampleConfig.IsForcedRerun = false
    ∧ (unreadableDirFS "out".data).node = Node.dir ["pslist.txt".data]
    ∧ IsRunRequired exampleConfig unreadableDirFS "out".data = some true
    ∧ IsRunRequired exampleConfig unreadableDirFS "out".data ≠ some false := by
  decide

/-- C1, amended: `IsRunRequired` is true whenever the force flag is set; with
the flag unset and `os.Stat` not failing for a reason other than absence, it is
true when the path does not exist, false when it exists and is not a directory,
true when it is an empty directory, false when it is a directory with at least
one entry that can be opened and read, and true when it is a directory that
cannot be opened or read. -/
theorem C1_IsRunRequired_cases (cfg : Config) (fs : FileSystem) (P : Str) :
    (cfg.IsForcedRerun = true → IsRunRequired cfg fs P = some true)
    ∧ (cfg.IsForcedRerun = false → (fs P).statFails = false →
        ((fs P).node = Node.absent → IsRunRequired cfg fs P = some true)
        ∧ ((fs P).node = Node.file → IsRunRequired cfg fs P = some false)
        ∧ ((fs P).node = Node.dir [] → IsRunRequired cfg fs P = some true)
        ∧ (∀ e es, (fs P).node = Node.dir (e :: es) → (fs P).openFails = false →
            (fs P).readFails = false → IsRunRequired cfg fs P = some false)
        ∧ (∀ es, (fs P).node = Node.dir es →
            ((fs P).openFails = true ∨ (fs P).readFails = true) →
            IsRunRequired cfg fs P = some true)) := by
  refine ⟨fun hf => by simp [IsRunRequired, hf], fun hf hs => ⟨?_, ?_, ?_, ?_, ?_⟩⟩
  · intro hn
    simp [IsRunRequired, hf, osStat, hs, hn, IsNotExist]
  · intro hn
    simp [IsRunRequired, hf, osStat, hs, hn, IsNotExist, ENOENT]
  · intro hn
    cases ho : (fs P).openFails <;> cases hr : (fs P).readFails <;>
      simp [IsRunRequired, hf, osStat, hs, hn, IsNotExist, ENOENT, osOpen, ho, hr, Readdirnames]
  · intro e es hn ho hr
    simp [IsRunRequired, hf, osStat, hs, hn, IsNotExist, ENOENT, osOpen, ho, hr, Readdirnames]
  · intro es hn hor
    cases ho : (fs P).openFails
    · have hr : (fs P).readFails = true := by
        rcases hor with h | h
        · rw [ho] at h; cases h
        · exact h
      simp [IsRunRequired, hf, osStat, hs, hn, IsNotExist, ENOENT, osOpen, ho, hr, Readdirnames]
    · simp [IsRunRequired, hf, osStat, hs, hn, IsNotExist, ENOENT, osOpen, ho]

/-- C1, amended, at a readable directory holding one entry: no run is required. -/
theorem C1_IsRunRequired_cases_witness :
    IsRunRequired exampleConfig readableDirFS "out".data = some false :=
  (C1_IsRunRequired_cases exampleConfig readableDirFS "out".data).2 (by decide) (by decide)
    |>.2.2.2.1 "pslist.txt".data [] (by decide) (by decide) (by decide)

/-- C8, as stated, fails: an empty argument vector does not begin with the
binary name, yet nothing is prepended to it; and a first argument that differs
from the binary name only in letter case is left as it is. -/
theorem C8_commandArgs_counterexample :
    commandArgs exampleConfig exampleEnv [] = []
    ∧ commandArgs exampleConfig exampleEnv []
        ≠ ["vol.py".data, "-q".data, "-f".data, "mem.raw".data] ++ []
    ∧ "VOL.PY".data ≠ exampleConfig.VolRunConfig.Binary
    ∧ commandArgs exampleConfig exampleEnv ["VOL.PY".data, "windows.info".data]
        = ["VOL.PY".data, "windows.info".data] := by
  decide

/-- C8, amended: for a non-empty argument vector whose first element is not
equal to the binary name under case folding, the vector given to the external
tool is [binary, "-q", "-f", memory-image path] followed by the arguments; when
the first element equals the binary name under case folding, and when the
vector is empty, the vector is given unchanged. Every spawn made by
`RunVolatilityPluginAndWriteResult` carries that vector. -/
theorem C8_commandArgs_cases (cfg : Config) (env : Env) (args : List Str) :
    (∀ args0 rest, args = args0 :: rest →
        EqualFold env.foldEq args0 cfg.VolRunConfig.Binary = false →
        commandArgs cfg env args
          = [cfg.VolRunConfig.Binary, "-q".data, "-f".data, cfg.MemoryDumpPath] ++ args)
    ∧ (∀ args0 rest, args = args0 :: rest →
        EqualFold env.foldEq args0 cfg.VolRunConfig.Binary = true →
        commandArgs cfg env args = args)
    ∧ (args = [] → commandArgs cfg env args = [])
    ∧ (∀ resultFilepath isOverride runner v redirect,
        Event.run runner v redirect
          ∈ (RunVolatilityPluginAndWriteResult cfg env args resultFilepath isOverride).2 →
        runner = cfg.VolRunConfig.Runner ∧ v = commandArgs cfg env args) := by
  refine ⟨?_, ?_, ?_, ?_⟩
  · intro args0 rest e h
    subst e
    simp [commandArgs, h]
  · intro args0 rest e h
    subst e
    simp [commandArgs, h]
  · intro e
    subst e
    rfl
  · intro resultFilepath isOverride runner v redirect h
    exact RunVolatilityPluginAndWriteResult_run_args cfg env args resultFilepath isOverride
      runner v redirect h

/-- C8, amended, at the module arguments `windows.pslist`: the common flags are
prepended. -/
theorem C8_commandArgs_cases_witness :
    commandArgs exampleConfig exampleEnv ["windows.pslist".data]
      = ["vol.py".data, "-q".data, "-f".data, "mem.raw".data, "windows.pslist".data] :=
  (C8_commandArgs_cases exampleConfig exampleEnv ["windows.pslist".data]).1
    "windows.pslist".data [] rfl (by decide)

/-- C9: `DumpFile` returns an error and has no effect at all, so spawns no
process, when both offset fields are empty; otherwise it calls
`RunVolatilityPluginAndWriteResult` with the vector [binary, "-f", image path,
"-o", outputFolder, "windows.dumpfiles.DumpFiles", flag, offset], an empty
result path and overwrite true, where flag and offset are "--physaddr" and the
physical offset when that is non-empty and "--virtaddr" and the virtual offset
otherwise; the call spawns the tool exactly once with that vector, not
redirected, and `DumpFile` returns the spawn's result. -/
theorem C9_DumpFile (cfg : Config) (env : Env) (dumpFile : FileInfo) (outputFolder : Str) :
    (dumpFile.PhysicalAddrOffset = [] → dumpFile.VirtualAddrOffset = [] →
      FilesPlugin.DumpFile cfg env dumpFile outputFolder
        = (some (Err.emptyOffset dumpFile.Path), []))
    ∧ (¬ (dumpFile.PhysicalAddrOffset = [] ∧ dumpFile.VirtualAddrOffset = []) →
      ∀ flag offset,
        (flag, offset) =
          (if dumpFile.PhysicalAddrOffset ≠ [] then
            ("--physaddr".data, dumpFile.PhysicalAddrOffset)
          else ("--virtaddr".data, dumpFile.VirtualAddrOffset)) →
      ∀ v, v = [cfg.VolRunConfig.Binary, "-f".data, cfg.MemoryDumpPath, "-o".data,
                 outputFolder, "windows.dumpfiles.DumpFiles".data, flag, offset] →
        FilesPlugin.DumpFile cfg env dumpFile outputFolder
          = RunVolatilityPluginAndWriteResult cfg env v [] true
        ∧ FilesPlugin.DumpFile cfg env dumpFile outputFolder
          = (env.runCmd cfg.VolRunConfig.Runner v none,
              [Event.logExecuting false (Join (cfg.VolRunConfig.Runner :: v) " ".data) [],
               Event.run cfg.VolRunConfig.Runner v none])) := by
  constructor
  · intro hp hv
    simp [FilesPlugin.DumpFile, hp, hv]
  · intro hne flag offset hfo v hv
    subst hv
    by_cases hp : dumpFile.PhysicalAddrOffset = []
    · have hv : dumpFile.VirtualAddrOffset ≠ [] := fun h => hne ⟨hp, h⟩
      simp only [hp, ne_eq, not_true_eq_false, if_false, Prod.mk.injEq] at hfo
      obtain ⟨rfl, rfl⟩ := hfo
      have hrun : RunVolatilityPluginAndWriteResult cfg env
          [cfg.VolRunConfig.Binary, "-f".data, cfg.MemoryDumpPath, "-o".data, outputFolder,
            "windows.dumpfiles.DumpFiles".data, "--virtaddr".data, dumpFile.VirtualAddrOffset]
          [] true
          = (env.runCmd cfg.VolRunConfig.Runner
              [cfg.VolRunConfig.Binary, "-f".data, cfg.MemoryDumpPath, "-o".data, outputFolder,
                "windows.dumpfiles.DumpFiles".data, "--virtaddr".data,
                dumpFile.VirtualAddrOffset] none,
              [Event.logExecuting false (Join (cfg.VolRunConfig.Runner ::
                [cfg.VolRunConfig.Binary, "-f".data, cfg.MemoryDumpPath, "-o".data, outputFolder,
                "windows.dumpfiles.DumpFiles".data, "--virtaddr".data,
                dumpFile.VirtualAddrOffset]) " ".data) [],
               Event.run cfg.VolRunConfig.Runner
                [cfg.VolRunConfig.Binary, "-f".data, cfg.MemoryDumpPath, "-o".data, outputFolder,
                "windows.dumpfiles.DumpFiles".data, "--virtaddr".data,
                dumpFile.VirtualAddrOffset] none]) := by
        simp [RunVolatilityPluginAndWriteResult, commandArgs_cons_self]
      have hd : FilesPlugin.DumpFile cfg env dumpFile outputFolder
          = RunVolatilityPluginAndWriteResult cfg env
            [cfg.VolRunConfig.Binary, "-f".data, cfg.MemoryDumpPath, "-o".data, outputFolder,
              "windows.dumpfiles.DumpFiles".data, "--virtaddr".data,
              dumpFile.VirtualAddrOffset] [] true := by
        simp [FilesPlugin.DumpFile, hp, hv]
      exact ⟨hd, hd.trans hrun⟩
    · simp only [hp, ne_eq, not_false_eq_true, if_true, Prod.mk.injEq] at hfo
      obtain ⟨rfl, rfl⟩ := hfo
      have hrun : RunVolatilityPluginAndWriteResult cfg env
          [cfg.VolRunConfig.Binary, "-f".data, cfg.MemoryDumpPath, "-o".data, outputFolder,
            "windows.dumpfiles.DumpFiles".data, "--physaddr".data, dumpFile.PhysicalAddrOffset]
          [] true
          = (env.runCmd cfg.VolRunConfig.Runner
              [cfg.VolRunConfig.Binary, "-f".data, cfg.MemoryDumpPath, "-o".data, outputFolder,
                "windows.dumpfiles.DumpFiles".data, "--physaddr".data,
                dumpFile.PhysicalAddrOffset] none,
              [Event.logExecuting false (Join (cfg.VolRunConfig.Runner ::
                [cfg.VolRunConfig.Binary, "-f".data, cfg.MemoryDumpPath, "-o".data, outputFolder,
                "windows.dumpfiles.DumpFiles".data, "--physaddr".data,
                dumpFile.PhysicalAddrOffset]) " ".data) [],
               Event.run cfg.VolRunConfig.Runner
                [cfg.VolRunConfig.Binary, "-f".data, cfg.MemoryDumpPath, "-o".data, outputFolder,
                "windows.dumpfiles.DumpFiles".data, "--physaddr".data,
                dumpFile.PhysicalAddrOffset] none]) := by
        simp [RunVolatilityPluginAndWriteResult, commandArgs_cons_self]
      have hd : FilesPlugin.DumpFile cfg env dumpFile outputFolder
          = RunVolatilityPluginAndWriteResult cfg env
            [cfg.VolRunConfig.Binary, "-f".data, cfg.MemoryDumpPath, "-o".data, outputFolder,
              "windows.dumpfiles.DumpFiles".data, "--physaddr".data,
              dumpFile.PhysicalAddrOffset] [] true := by
        simp [FilesPlugin.DumpFile, hp]
      exact ⟨hd, hd.trans hrun⟩

/-- C9, at a record with a physical offset: one spawn, whose result is returned. -/
theorem C9_DumpFile_witness :
    FilesPlugin.DumpFile exampleConfig failingEnv
      { Path := "\\a.dll".data, VirtualAddrOffset := [], PhysicalAddrOffset := "0x1a".data }
      "out".data
    = (some (Err.os 1),
        [Event.logExecuting false
          (Join ["python3".data, "vol.py".data, "-f".data, "mem.raw".data, "-o".data,
            "out".data, "windows.dumpfiles.DumpFiles".data, "--physaddr".data, "0x1a".data]
            " ".data) [],
         Event.run "python3".data
          ["vol.py".data, "-f".data, "mem.raw".data, "-o".data, "out".data,
            "windows.dumpfiles.DumpFiles".data, "--physaddr".data, "0x1a".data] none]) :=
  ((C9_DumpFile exampleConfig failingEnv
      { Path := "\\a.dll".data, VirtualAddrOffset := [], PhysicalAddrOffset := "0x1a".data }
      "out".data).2 (by decide) "--physaddr".data "0x1a".data (by decide) _ rfl).2

/-- C10: whatever the order in which the worker pool runs the submitted tasks
and whatever each task meets outside the program, `DumpFiles` returns nil if
and only if `DumpFile` returns nil for every record of the list, and `DumpFile`
is called exactly once for every record: the indices of the calls made are a
permutation of the indices of the list, and each call is the call of `DumpFile`
on the record at its index. -/
theorem C10_DumpFiles (cfg : Config) (envs : Nat → Env) (order : List Nat)
    (dumpFiles : List FileInfo) (outputFolder : Str)
    (hperm : order.Perm (FilesPlugin.DumpFiles.submitted dumpFiles)) :
    ((FilesPlugin.DumpFiles cfg envs order dumpFiles outputFolder).1 = none ↔
      ∀ i, ∀ h : i < dumpFiles.length,
        (FilesPlugin.DumpFile cfg (envs i) dumpFiles[i] outputFolder).1 = none)
    ∧ ((FilesPlugin.DumpFiles cfg envs order dumpFiles outputFolder).2.calls.map Prod.fst).Perm
        (List.range dumpFiles.length)
    ∧ (∀ c ∈ (FilesPlugin.DumpFiles cfg envs order dumpFiles outputFolder).2.calls,
        ∃ h : c.1 < dumpFiles.length,
          c.2 = (FilesPlugin.DumpFile cfg (envs c.1) dumpFiles[c.1] outputFolder).1) := by
  have hord : ∀ i ∈ order, i < dumpFiles.length := by
    intro i hi
    have := hperm.mem_iff.mp hi
    simpa [FilesPlugin.DumpFiles.submitted] using this
  have hmem : ∀ i, i < dumpFiles.length → i ∈ order := by
    intro i hi
    exact hperm.mem_iff.mpr (by simpa [FilesPlugin.DumpFiles.submitted] using hi)
  obtain ⟨h1, h2⟩ := DumpFiles.foldl_spec cfg envs dumpFiles outputFolder order hord
    { aggregatedError := none, calls := [], events := [] }
  simp only [FilesPlugin.DumpFiles]
  refine ⟨?_, ?_, ?_⟩
  · rw [h1]
    constructor
    · rintro ⟨_, hb⟩ i hi
      exact hb i (hmem i hi) hi
    · intro hb
      exact ⟨rfl, fun i _ hi => hb i hi⟩
  · rw [h2]
    simp only [List.nil_append, List.map_map]
    have : (order.attach.map (Prod.fst ∘ fun i : { x // x ∈ order } =>
        (i.1, (FilesPlugin.DumpFile cfg (envs i.1)
          (dumpFiles.get ⟨i.1, hord i.1 i.2⟩) outputFolder).1))) = order := by
      have e : (Prod.fst ∘ fun i : { x // x ∈ order } =>
        (i.1, (FilesPlugin.DumpFile cfg (envs i.1)
          (dumpFiles.get ⟨i.1, hord i.1 i.2⟩) outputFolder).1)) = Subtype.val := by
        funext i
        rfl
      rw [e, List.attach_map_subtype_val]
    rw [this]
    exact hperm
  · intro c hc
    rw [h2] at hc
    simp only [List.nil_append, List.mem_map, List.mem_attach, true_and] at hc
    obtain ⟨i, rfl⟩ := hc
    exact ⟨hord i.1 i.2, rfl⟩

/-- C10, at two records, the second without an offset, the second task running
first: both records are attempted and the result is not nil. -/
theorem C10_DumpFiles_witness :
    ((FilesPlugin.DumpFiles exampleConfig (fun _ => exampleEnv) [1, 0] exampleRecords
        "out".data).2.calls.map Prod.fst).Perm (List.range exampleRecords.length)
    ∧ (FilesPlugin.DumpFiles exampleConfig (fun _ => exampleEnv) [1, 0] exampleRecords
        "out".data).1 ≠ none :=
  ⟨(C10_DumpFiles exampleConfig (fun _ => exampleEnv) [1, 0] exampleRecords "out".data
      (by decide)).2.1,
   fun h => absurd
    ((C10_DumpFiles exampleConfig (fun _ => exampleEnv) [1, 0] exampleRecords "out".data
      (by decide)).1.mp h 1 (by decide)) (by decide)⟩

/-- C4: with both artifacts readable, `ProcessesPlugin.Run` returns an error if
and only if some post-header cmdline row with at least 3 fields has a first
field that `strconv.Atoi` rejects, or no cmdline row fails and some post-header
pslist row with at least 3 fields has a first or second field that
`strconv.Atoi` rejects. -/
theorem C4_Run_error_iff (cmdline pslist : List Str) (s : Store) :
    (ProcessesPlugin.Run (.ok cmdline) (.ok pslist) s).1 ≠ none ↔
      ((∃ r ∈ Spec.rows isCmdlineHeader cmdline, Atoi r.1 = none) ∨
       ((∀ r ∈ Spec.rows isCmdlineHeader cmdline, Atoi r.1 ≠ none) ∧
        ∃ r ∈ Spec.rows isPslistHeader pslist, Atoi r.1 = none ∨ Atoi r.2.1 = none)) := by
  rw [Run_ok_eq]
  have hc := runRows_cmdline_error_iff (Spec.rows isCmdlineHeader cmdline) s
  rcases hrun : runRows cmdlineStep (Spec.rows isCmdlineHeader cmdline) s with ⟨e, s1⟩
  rw [hrun] at hc
  cases e with
  | some err =>
    simp only [ne_eq, not_false_eq_true, true_iff, reduceCtorEq] at hc ⊢
    exact Or.inl hc
  | none =>
    simp only [ne_eq, not_true_eq_false, false_iff, not_exists, not_and] at hc
    simp only [runRows_pslist_error_iff]
    constructor
    · intro h
      exact Or.inr ⟨fun r hr => hc r hr, h⟩
    · rintro (⟨r, hr, hb⟩ | ⟨_, h⟩)
      · exact absurd hb (hc r hr)
      · exact h

/-- C5: for a pslist row with at least 3 fields whose two identifiers are
integers, one of them absent from the process map, the body of pass two returns
no error and leaves the store as it is, map and records alike, and the loop
goes on to the next line with the same store. -/
theorem C5_pslistRow_absent (p0 p1 : Str) (s : Store) (pid ppid : Int)
    (h0 : Atoi p0 = some pid) (h1 : Atoi p1 = some ppid)
    (habs : s.lookup (toUint pid) = none ∨ s.lookup (toUint ppid) = none) :
    pslistRow p0 p1 s = .ok s
    ∧ ∀ (line : Str) (rest : List Str), (∃ p2 tl, Fields line = p0 :: p1 :: p2 :: tl) →
        ProcessesPlugin.scanPslist (line :: rest) true s
          = ProcessesPlugin.scanPslist rest true s := by
  have hrow : pslistRow p0 p1 s = .ok s := by
    rw [pslistRow_ok p0 p1 s pid ppid h0 h1]
    rcases habs with h | h
    · rw [h]
    · rw [h]
      cases s.lookup (toUint pid) <;> rfl
  refine ⟨hrow, ?_⟩
  rintro line rest ⟨p2, tl, hF⟩
  rw [scanPslist_cons_found]
  simp [Spec.rowOf, hF, pslistStep, hrow]

/-- C5, at the row "200 100 cmd.exe" and a store that holds only process 100. -/
theorem C5_pslistRow_absent_witness :
    pslistRow "200".data "100".data exampleStore = .ok exampleStore :=
  (C5_pslistRow_absent "200".data "100".data exampleStore 200 100 (by decide) (by decide)
    (Or.inl (by decide))).1

/-- C6: for a cmdline row with at least 3 fields whose first field parses to an
integer, the body of pass one stores, under the key that is the `uint` of that
integer, a record with that identifier, the second field as image name, no
parent, and as arguments the empty string when the identifier is 4 and
otherwise the third and later fields joined by single spaces; the loop goes on
to the next line with that store. -/
theorem C6_cmdlineRow_record (p0 p1 : Str) (tail : List Str) (s : Store) (n : Int)
    (h : Atoi p0 = some n) :
    ∃ s1, cmdlineRow p0 p1 tail s = .ok s1
      ∧ s1.record (toUint n)
          = some { ImageName := p1, PID := toUint n,
                   Args := if toUint n = 4 then [] else Join tail " ".data,
                   ParentProc := none }
      ∧ ∀ (line : Str) (rest : List Str) (p2 : Str) (tl : List Str),
          Fields line = p0 :: p1 :: p2 :: tl → tail = p2 :: tl →
          ProcessesPlugin.scanCmdline (line :: rest) true s
            = ProcessesPlugin.scanCmdline rest true s1 := by
  refine ⟨_, cmdlineRow_ok p0 p1 tail s n h, ?_, ?_⟩
  · simp [Store.record, Store.lookup, List.lookup_cons]
  · intro line rest p2 tl hF ht
    subst ht
    rw [scanCmdline_cons_found]
    simp [Spec.rowOf, hF, cmdlineStep, cmdlineRow_ok p0 p1 (p2 :: tl) s n h]

/-- C6, at the row "4 System Required memory" and the empty store: the record
stored under 4 has the image name "System" and empty arguments. -/
theorem C6_cmdlineRow_record_witness :
    ∃ s1, cmdlineRow "4".data "System".data ["Required".data, "memory".data] Store.empty
        = .ok s1
      ∧ s1.record 4
          = some { ImageName := "System".data, PID := 4, Args := [], ParentProc := none } := by
  obtain ⟨s1, hrow, hrec, _⟩ :=
    C6_cmdlineRow_record "4".data "System".data ["Required".data, "memory".data]
      Store.empty 4 (by decide)
  exact ⟨s1, hrow, hrec⟩

/-- C2: when every identifier field of the post-header rows of both artifacts
is an integer, `ProcessesPlugin.Run` on the empty store returns no error and
keeps the map of pass one, and for every identifier `p` recorded by pass one
the record stored under `p` carries the identifier `p`; its parent pointer is
the record stored under `q` when `(p, q)` is the last post-header pslist row
for `p` whose two identifiers both occur in the pass-one map, and nil when
there is no such row. -/
theorem C2_Run_parents (cmdline pslist : List Str)
    (hcmd : ∀ r ∈ Spec.rows isCmdlineHeader cmdline, Atoi r.1 ≠ none)
    (hps : ∀ r ∈ Spec.rows isPslistHeader pslist, Atoi r.1 ≠ none ∧ Atoi r.2.1 ≠ none) :
    (ProcessesPlugin.Run (.ok cmdline) (.ok pslist) Store.empty).1 = none
    ∧ (ProcessesPlugin.Run (.ok cmdline) (.ok pslist) Store.empty).2.PIDToProcess
        = (ProcessesPlugin.scanCmdline cmdline false Store.empty).2.PIDToProcess
    ∧ ∀ p, ((ProcessesPlugin.scanCmdline cmdline false Store.empty).2.lookup p).isSome →
        ∃ proc,
          (ProcessesPlugin.Run (.ok cmdline) (.ok pslist) Store.empty).2.record p = some proc
          ∧ proc.PID = p
          ∧ (∀ q, Spec.lastParent (ProcessesPlugin.scanCmdline cmdline false Store.empty).2
                (Spec.rows isPslistHeader pslist) p = some q →
              proc.ParentProc
                = (ProcessesPlugin.Run (.ok cmdline) (.ok pslist) Store.empty).2.lookup q
              ∧ ∃ parent,
                  (ProcessesPlugin.Run (.ok cmdline) (.ok pslist) Store.empty).2.record q
                    = some parent
                  ∧ parent.PID = q)
          ∧ (Spec.lastParent (ProcessesPlugin.scanCmdline cmdline false Store.empty).2
                (Spec.rows isPslistHeader pslist) p = none →
              proc.ParentProc = none) := by
  obtain ⟨s1, s2, h1, h2, hmap, hrec⟩ := Run_from_empty cmdline pslist hcmd hps
  rw [h1, h2]
  have hlook : ∀ k, s2.lookup k = s1.lookup k := by
    intro k
    simp only [Store.lookup, hmap]
  refine ⟨rfl, hmap, ?_⟩
  intro p hp
  obtain ⟨a, ha⟩ := Option.isSome_iff_exists.mp hp
  have hproc : s2.record p = s2.heap[a]? := by
    simp only [Store.record, hlook, ha]
  rw [hproc, hrec p a ha]
  refine ⟨_, rfl, rfl, ?_, ?_⟩
  · intro q hq
    obtain ⟨_, hqs⟩ := lastParent_some s1 _ p q hq
    obtain ⟨b, hb⟩ := Option.isSome_iff_exists.mp hqs
    have hpar : s2.record q = s2.heap[b]? := by
      simp only [Store.record, hlook, hb]
    rw [hpar, hrec q b hb]
    exact ⟨by simp only [parentAfter, hq, hlook], _, rfl, rfl⟩
  · intro hq
    simp only [parentAfter, hq]

/-- C2, at the cmdline rows 4, 100 and 200 and the pslist edges 200 → 100 and
100 → 4: the parent of 200 is the record of 100, the parent of 100 is the
record of 4, and 4 has no parent. -/
theorem C2_Run_parents_witness :
    (∃ proc parent,
      (ProcessesPlugin.Run (.ok exampleCmdline) (.ok examplePslist) Store.empty).2.record 200
        = some proc
      ∧ proc.ParentProc
        = (ProcessesPlugin.Run (.ok exampleCmdline) (.ok examplePslist) Store.empty).2.lookup 100
      ∧ (ProcessesPlugin.Run (.ok exampleCmdline) (.ok examplePslist) Store.empty).2.record 100
        = some parent
      ∧ parent.PID = 100)
    ∧ (∃ proc parent,
      (ProcessesPlugin.Run (.ok exampleCmdline) (.ok examplePslist) Store.empty).2.record 100
        = some proc
      ∧ proc.ParentProc
        = (ProcessesPlugin.Run (.ok exampleCmdline) (.ok examplePslist) Store.empty).2.lookup 4
      ∧ (ProcessesPlugin.Run (.ok exampleCmdline) (.ok examplePslist) Store.empty).2.record 4
        = some parent
      ∧ parent.PID = 4)
    ∧ (∃ proc,
      (ProcessesPlugin.Run (.ok exampleCmdline) (.ok examplePslist) Store.empty).2.record 4
        = some proc
      ∧ proc.ParentProc = none) := by
  have h := (C2_Run_parents exampleCmdline examplePslist (by decide) (by decide)).2.2
  refine ⟨?_, ?_, ?_⟩
  · obtain ⟨proc, hrec, _, hsome, _⟩ := h 200 (by decide)
    obtain ⟨hpar, parent, hprec, hpid⟩ := hsome 100 (by decide)
    exact ⟨proc, parent, hrec, hpar, hprec, hpid⟩
  · obtain ⟨proc, hrec, _, hsome, _⟩ := h 100 (by decide)
    obtain ⟨hpar, parent, hprec, hpid⟩ := hsome 4 (by decide)
    exact ⟨proc, parent, hrec, hpar, hprec, hpid⟩
  · obtain ⟨proc, hrec, _, _, hnone⟩ := h 4 (by decide)
    exact ⟨proc, hrec, hnone (by decide)⟩

/-- C14: for either value of `isOverride` the flag word of `GetFileOpenFlag`
has the create and write-only bits set; it has the truncate bit and not the
append bit when `isOverride` is true, and the append bit and not the truncate
bit when it is false. -/
theorem C14_GetFileOpenFlag (isOverride : Bool) :
    GetFileOpenFlag isOverride &&& O_CREATE = O_CREATE
    ∧ GetFileOpenFlag isOverride &&& O_WRONLY = O_WRONLY
    ∧ GetFileOpenFlag isOverride &&& O_TRUNC = (if isOverride then O_TRUNC else 0)
    ∧ GetFileOpenFlag isOverride &&& O_APPEND = (if isOverride then 0 else O_APPEND)
    ∧ O_TRUNC ≠ 0 ∧ O_APPEND ≠ 0 := by
  cases isOverride <;> decide

/-- C19: with the force flag unset and `os.Stat` failing for a reason other
than absence, `IsRunRequired` returns no boolean: it calls `IsDir` on the nil
file info. -/
theorem C19_IsRunRequired_stat_failure :
    exampleConfig.IsForcedRerun = false
    ∧ osStat (deniedFS "out".data) = (none, some EACCES)
    ∧ IsNotExist (some EACCES) = false
    ∧ IsRunRequired exampleConfig deniedFS "out".data = none := by
  decide

/-- C13, as stated, fails: running the files collector twice on an artifact
with one row leaves two records in the file list, running it once leaves one. -/
theorem C13_Run_twice_counterexample :
    (FilesPlugin.Run (.ok exampleFilescan) "win7".data
        (FilesPlugin.Run (.ok exampleFilescan) "win7".data []).2).2
      ≠ (FilesPlugin.Run (.ok exampleFilescan) "win7".data []).2
    ∧ (FilesPlugin.Run (.ok exampleFilescan) "win7".data
        (FilesPlugin.Run (.ok exampleFilescan) "win7".data []).2).2.length = 2
    ∧ (FilesPlugin.Run (.ok exampleFilescan) "win7".data []).2.length = 1 := by
  decide

/-- C13, amended: every run of the files collector on an artifact appends the
same record sequence, which depends on the artifact and the profile only, and
returns the same error; after one run the file list is the initial list
followed by that sequence, after two runs it is the initial list followed by
that sequence twice. -/
theorem C13_Run_twice (filescan : Artifact) (Profile : Str) (FileList : List FileInfo) :
    (FilesPlugin.Run filescan Profile FileList).2
      = FileList ++ (FilesPlugin.Run filescan Profile []).2
    ∧ (FilesPlugin.Run filescan Profile (FilesPlugin.Run filescan Profile FileList).2).2
      = FileList ++ (FilesPlugin.Run filescan Profile []).2
          ++ (FilesPlugin.Run filescan Profile []).2
    ∧ (FilesPlugin.Run filescan Profile FileList).1 = (FilesPlugin.Run filescan Profile []).1
    ∧ (FilesPlugin.Run filescan Profile (FilesPlugin.Run filescan Profile FileList).2).1
      = (FilesPlugin.Run filescan Profile []).1 := by
  refine ⟨?_, ?_, ?_, ?_⟩
  · rw [FilesPlugin.Run_append]
  · rw [FilesPlugin.Run_append filescan Profile (FilesPlugin.Run filescan Profile FileList).2,
      FilesPlugin.Run_append filescan Profile FileList]
  · rw [FilesPlugin.Run_append]
  · rw [FilesPlugin.Run_append filescan Profile (FilesPlugin.Run filescan Profile FileList).2]

/-- C15: when the argument vector has no "-o", a failure to open the
destination makes `RunVolatilityPluginAndWriteResult` return an error that
wraps the failure, without spawning the external process; when the open
succeeds the process is spawned exactly once, with its streams redirected to
the destination, and the result is the error of that spawn, unchanged. -/
theorem C15_open_then_spawn (cfg : Config) (env : Env) (args : List Str)
    (resultFilepath : Str) (isOverride : Bool) (hno : "-o".data ∉ args) :
    (∀ err, env.openFile (destination cfg env resultFilepath) (GetFileOpenFlag isOverride)
        = some err →
      (RunVolatilityPluginAndWriteResult cfg env args resultFilepath isOverride).1
        = some (Err.openFailed (destination cfg env resultFilepath) err)
      ∧ (RunVolatilityPluginAndWriteResult cfg env args resultFilepath isOverride).2.filter
          Spec.isRun = [])
    ∧ (env.openFile (destination cfg env resultFilepath) (GetFileOpenFlag isOverride) = none →
      (RunVolatilityPluginAndWriteResult cfg env args resultFilepath isOverride).1
        = env.runCmd cfg.VolRunConfig.Runner (commandArgs cfg env args)
            (some (destination cfg env resultFilepath))
      ∧ (RunVolatilityPluginAndWriteResult cfg env args resultFilepath isOverride).2.filter
          Spec.isRun
        = [Event.run cfg.VolRunConfig.Runner (commandArgs cfg env args)
            (some (destination cfg env resultFilepath))]) := by
  rw [RunVolatilityPluginAndWriteResult_no_dump cfg env args resultFilepath isOverride hno]
  constructor
  · intro err he
    rw [he]
    exact ⟨rfl, rfl⟩
  · intro he
    rw [he]
    exact ⟨rfl, rfl⟩

/-- C15, where no file can be opened: an error and no spawn. -/
theorem C15_open_then_spawn_witness :
    (RunVolatilityPluginAndWriteResult exampleConfig noOpenEnv ["windows.pslist".data]
        "out/pslist.txt".data false).1
      = some (Err.openFailed "out/pslist.txt".data (Err.os 13))
    ∧ (RunVolatilityPluginAndWriteResult exampleConfig noOpenEnv ["windows.pslist".data]
        "out/pslist.txt".data false).2.filter Spec.isRun = [] :=
  (C15_open_then_spawn exampleConfig noOpenEnv ["windows.pslist".data] "out/pslist.txt".data
    false (by decide)).1 (Err.os 13) (by decide)

/-- C17: for a file record with a non-empty offset, the call `DumpFile` makes
to `RunVolatilityPluginAndWriteResult` has an empty result path and an argument
vector that holds "-o" and begins with the binary name; the vector is used as
it is, no file is opened, the process is spawned without redirection, and the
result of `DumpFile` is the result of that spawn. -/
theorem C17_DumpFile_directory_mode (cfg : Config) (env : Env) (dumpFile : FileInfo)
    (outputFolder : Str)
    (h : dumpFile.PhysicalAddrOffset ≠ [] ∨ dumpFile.VirtualAddrOffset ≠ []) :
    FilesPlugin.DumpFile cfg env dumpFile outputFolder
      = RunVolatilityPluginAndWriteResult cfg env (dumpArgs cfg dumpFile outputFolder) [] true
    ∧ "-o".data ∈ dumpArgs cfg dumpFile outputFolder
    ∧ commandArgs cfg env (dumpArgs cfg dumpFile outputFolder)
        = dumpArgs cfg dumpFile outputFolder
    ∧ (FilesPlugin.DumpFile cfg env dumpFile outputFolder).2.filter Spec.isOpenFile = []
    ∧ (FilesPlugin.DumpFile cfg env dumpFile outputFolder).2.filter Spec.isRun
        = [Event.run cfg.VolRunConfig.Runner (dumpArgs cfg dumpFile outputFolder) none]
    ∧ (FilesPlugin.DumpFile cfg env dumpFile outputFolder).1
        = env.runCmd cfg.VolRunConfig.Runner (dumpArgs cfg dumpFile outputFolder) none := by
  refine ⟨DumpFile_valid cfg env dumpFile outputFolder h, ?_, ?_, ?_, ?_, ?_⟩
  · simp [dumpArgs]
  · obtain ⟨e, _⟩ := dumpArgs_eq cfg dumpFile outputFolder
    rw [e]
    exact commandArgs_cons_self cfg env _
  · rw [DumpFile_valid_eq cfg env dumpFile outputFolder h]
    rfl
  · rw [DumpFile_valid_eq cfg env dumpFile outputFolder h]
    rfl
  · rw [DumpFile_valid_eq cfg env dumpFile outputFolder h]

/-- C17, at a record with a physical offset, where no file can be opened: the
spawn still happens, and its result is returned. -/
theorem C17_DumpFile_directory_mode_witness :
    (FilesPlugin.DumpFile exampleConfig noOpenEnv
        { Path := "\\a.dll".data, VirtualAddrOffset := [], PhysicalAddrOffset := "0x1a".data }
        "out".data).2.filter Spec.isOpenFile = []
    ∧ (FilesPlugin.DumpFile exampleConfig noOpenEnv
        { Path := "\\a.dll".data, VirtualAddrOffset := [], PhysicalAddrOffset := "0x1a".data }
        "out".data).1 = none :=
  ⟨(C17_DumpFile_directory_mode exampleConfig noOpenEnv
      { Path := "\\a.dll".data, VirtualAddrOffset := [], PhysicalAddrOffset := "0x1a".data }
      "out".data (Or.inl (by decide))).2.2.2.1,
   (C17_DumpFile_directory_mode exampleConfig noOpenEnv
      { Path := "\\a.dll".data, VirtualAddrOffset := [], PhysicalAddrOffset := "0x1a".data }
      "out".data (Or.inl (by decide))).2.2.2.2.2⟩

/-- C18, as stated, fails: a pslist row whose identifier equals its parent
identifier is stored as a link from the record to itself, and two rows that
form a cycle are stored as a cycle; in both cases no error is returned. -/
theorem C18_cycles_counterexample :
    (ProcessesPlugin.Run (.ok cycleCmdline) (.ok selfPslist) Store.empty).1 = none
    ∧ (ProcessesPlugin.Run (.ok cycleCmdline) (.ok selfPslist) Store.empty).2.lookup 100
        = some 0
    ∧ ((ProcessesPlugin.Run (.ok cycleCmdline) (.ok selfPslist) Store.empty).2.record 100).map
        Process.ParentProc = some (some 0)
    ∧ (ProcessesPlugin.Run (.ok cycleCmdline) (.ok cyclePslist) Store.empty).1 = none
    ∧ (ProcessesPlugin.Run (.ok cycleCmdline) (.ok cyclePslist) Store.empty).2.lookup 100
        = some 0
    ∧ (ProcessesPlugin.Run (.ok cycleCmdline) (.ok cyclePslist) Store.empty).2.lookup 200
        = some 1
    ∧ ((ProcessesPlugin.Run (.ok cycleCmdline) (.ok cyclePslist) Store.empty).2.record 100).map
        Process.ParentProc = some (some 1)
    ∧ ((ProcessesPlugin.Run (.ok cycleCmdline) (.ok cyclePslist) Store.empty).2.record 200).map
        Process.ParentProc = some (some 0) := by
  decide

/-- C18, amended: pass two stores the link of every row whose identifier and
parent identifier are integers present in the map, without an error and
without looking at the links already stored; when the two identifiers are
equal the record becomes its own parent. -/
theorem C18_pslistRow_stores_link (p0 p1 : Str) (s : Store) (pid ppid : Int)
    (child parent : Nat) (proc : Process)
    (h0 : Atoi p0 = some pid) (h1 : Atoi p1 = some ppid)
    (hc : s.lookup (toUint pid) = some child) (hp : s.lookup (toUint ppid) = some parent)
    (hproc : s.heap[child]? = some proc) :
    ∃ s1, pslistRow p0 p1 s = .ok s1
      ∧ s1.PIDToProcess = s.PIDToProcess
      ∧ s1.heap[child]? = some { proc with ParentProc := some parent }
      ∧ (toUint pid = toUint ppid →
          s1.heap[child]? = some { proc with ParentProc := some child }) := by
  rw [pslistRow_ok p0 p1 s pid ppid h0 h1, hc, hp]
  refine ⟨_, rfl, rfl, ?_, ?_⟩
  · simp [List.getElem?_modify_eq, hproc]
  · intro e
    rw [e, hp] at hc
    injection hc with hc
    subst hc
    simp [List.getElem?_modify_eq, hproc]

/-- C18, amended, at the row "100 100 smss.exe" and a store that holds process
100: the record becomes its own parent. -/
theorem C18_pslistRow_stores_link_witness :
    ∃ s1, pslistRow "100".data "100".data exampleStore = .ok s1
      ∧ s1.PIDToProcess = exampleStore.PIDToProcess
      ∧ s1.heap[0]?
          = some { ImageName := "smss.exe".data, PID := 100, Args := [], ParentProc := some 0 } := by
  obtain ⟨s1, hrow, hmap, hrec, _⟩ :=
    C18_pslistRow_stores_link "100".data "100".data exampleStore 100 100 0 0
      { ImageName := "smss.exe".data, PID := 100, Args := [], ParentProc := none }
      (by decide) (by decide) (by decide) (by decide) (by decide)
  exact ⟨s1, hrow, hmap, hrec⟩

/-- C20, as stated, fails: the row whose first field is "0" is stored with the
identifier 0, which is not positive, and the row whose first field is "-1" is
stored with the identifier 18446744073709551615, which is not -1. -/
theorem C20_identifiers_counterexample :
    Atoi "0".data = some 0 ∧ Atoi "-1".data = some (-1)
    ∧ (ProcessesPlugin.scanCmdline signedCmdline false Store.empty).1 = none
    ∧ (ProcessesPlugin.scanCmdline signedCmdline false Store.empty).2.heap.map Process.PID
        = [0, 18446744073709551615]
    ∧ ¬ (0 < (0 : Nat))
    ∧ ((18446744073709551615 : Nat) : Int) ≠ -1 := by
  decide

/-- C20, amended: every process record pass one stores, starting from the empty
store, comes from a post-header row whose first field parses as an integer `n`,
and its identifier is `uint(n)`: equal to `n` when `n` is not negative, so 0 and
not positive when `n` is 0, and equal to `n + 2^64` when `n` is negative. -/
theorem C20_pass_one_identifiers (cmdline : List Str) (proc : Process)
    (hmem : proc ∈ (ProcessesPlugin.scanCmdline cmdline false Store.empty).2.heap) :
    ∃ r ∈ Spec.rows isCmdlineHeader cmdline, ∃ n : Int,
      Atoi r.1 = some n ∧ proc.PID = toUint n
      ∧ (0 ≤ n → (proc.PID : Int) = n)
      ∧ (n < 0 → (proc.PID : Int) = n + (2 ^ 64 : Int))
      ∧ (0 < proc.PID ↔ n ≠ 0) := by
  rw [scanCmdline_eq_rows] at hmem
  rcases runRows_cmdline_heap _ _ proc hmem with hin | ⟨r, hr, n, hn, hpid⟩
  · simp [Store.empty] at hin
  · obtain ⟨hlo, hhi⟩ := Atoi_range r.1 n hn
    refine ⟨r, hr, n, hn, hpid, ?_, ?_, ?_⟩
    · intro h0
      rw [hpid]
      exact toUint_of_nonneg n h0 hhi
    · intro h0
      rw [hpid]
      exact toUint_of_neg n h0 hlo
    · rw [hpid]
      rcases lt_or_le n 0 with hneg | hnn
      · have := toUint_of_neg n hneg hlo
        constructor
        · intro _
          omega
        · intro _
          omega
      · have := toUint_of_nonneg n hnn hhi
        constructor
        · intro hpos
          omega
        · intro hne
          omega

/-- C20, amended, at the artifact with the rows "0" and "-1": the record of the
second row has the identifier 18446744073709551615. -/
theorem C20_pass_one_identifiers_witness :
    ∃ r ∈ Spec.rows isCmdlineHeader signedCmdline, ∃ n : Int,
      Atoi r.1 = some n ∧ (18446744073709551615 : Nat) = toUint n
      ∧ (0 ≤ n → ((18446744073709551615 : Nat) : Int) = n)
      ∧ (n < 0 → ((18446744073709551615 : Nat) : Int) = n + (2 ^ 64 : Int))
      ∧ (0 < (18446744073709551615 : Nat) ↔ n ≠ 0) :=
  C20_pass_one_identifiers signedCmdline
    { ImageName := "ghost".data, PID := 18446744073709551615, Args := "ghost -x".data,
      ParentProc := none }
    (by decide)

/-- C12: a line with fewer than 3 whitespace-delimited fields inserted anywhere
after the header line changes neither the records nor the error: the files
collector, pass one and pass two of the processes collector, and
`ProcessesPlugin.Run` as a whole, give the same result with and without it. -/
theorem C12_short_line_skipped (x : Str) (hx : (Fields x).length < 3) (pre : List Str)
    (hd : Str) (a b : List Str) :
    (∀ Profile FileList, (∀ l ∈ pre, isFilescanHeader l = false) → isFilescanHeader hd = true →
      FilesPlugin.Run (.ok (pre ++ hd :: (a ++ x :: b))) Profile FileList
        = FilesPlugin.Run (.ok (pre ++ hd :: (a ++ b))) Profile FileList)
    ∧ (∀ s, (∀ l ∈ pre, isCmdlineHeader l = false) → isCmdlineHeader hd = true →
      ProcessesPlugin.scanCmdline (pre ++ hd :: (a ++ x :: b)) false s
        = ProcessesPlugin.scanCmdline (pre ++ hd :: (a ++ b)) false s)
    ∧ (∀ s, (∀ l ∈ pre, isPslistHeader l = false) → isPslistHeader hd = true →
      ProcessesPlugin.scanPslist (pre ++ hd :: (a ++ x :: b)) false s
        = ProcessesPlugin.scanPslist (pre ++ hd :: (a ++ b)) false s)
    ∧ (∀ pslist s, (∀ l ∈ pre, isCmdlineHeader l = false) → isCmdlineHeader hd = true →
      ProcessesPlugin.Run (.ok (pre ++ hd :: (a ++ x :: b))) pslist s
        = ProcessesPlugin.Run (.ok (pre ++ hd :: (a ++ b))) pslist s)
    ∧ (∀ cmdline s, (∀ l ∈ pre, isPslistHeader l = false) → isPslistHeader hd = true →
      ProcessesPlugin.Run cmdline (.ok (pre ++ hd :: (a ++ x :: b))) s
        = ProcessesPlugin.Run cmdline (.ok (pre ++ hd :: (a ++ b))) s) := by
  have hcmd : ∀ s, (∀ l ∈ pre, isCmdlineHeader l = false) → isCmdlineHeader hd = true →
      ProcessesPlugin.scanCmdline (pre ++ hd :: (a ++ x :: b)) false s
        = ProcessesPlugin.scanCmdline (pre ++ hd :: (a ++ b)) false s := by
    intro s hpre hhd
    rw [scanCmdline_eq_rows, scanCmdline_eq_rows,
      rows_insert_short isCmdlineHeader x hx pre hd a b hpre hhd]
  have hps : ∀ s, (∀ l ∈ pre, isPslistHeader l = false) → isPslistHeader hd = true →
      ProcessesPlugin.scanPslist (pre ++ hd :: (a ++ x :: b)) false s
        = ProcessesPlugin.scanPslist (pre ++ hd :: (a ++ b)) false s := by
    intro s hpre hhd
    rw [scanPslist_eq_rows, scanPslist_eq_rows,
      rows_insert_short isPslistHeader x hx pre hd a b hpre hhd]
  refine ⟨?_, hcmd, hps, ?_, ?_⟩
  · intro Profile FileList hpre hhd
    simp only [FilesPlugin.Run]
    rw [FilesPlugin.scan_header Profile pre hd _ FileList hpre hhd,
      FilesPlugin.scan_header Profile pre hd _ FileList hpre hhd,
      FilesPlugin.scan_found, FilesPlugin.scan_found]
    simp [List.filterMap_append, List.filterMap_cons, fileRecordOfLine_short Profile x hx]
  · intro pslist s hpre hhd
    simp only [ProcessesPlugin.Run, hcmd s hpre hhd]
  · intro cmdline s hpre hhd
    cases cmdline with
    | error err => rfl
    | ok lines =>
      simp only [ProcessesPlugin.Run]
      rcases ProcessesPlugin.scanCmdline lines false s with ⟨e, s1⟩
      cases e with
      | some err => rfl
      | none => simp only [hps s1 hpre hhd]

/-- C12, at a cmdline artifact with the line "oops 7" between two rows: pass
one gives the same result as without the line. -/
theorem C12_short_line_skipped_witness :
    ProcessesPlugin.scanCmdline shortLineCmdline false Store.empty
      = ProcessesPlugin.scanCmdline
          ["PID\tProcess\tArgs".data, "100\ta.exe\ta.exe -x".data,
           "200\tb.exe\tb.exe -y".data] false Store.empty :=
  (C12_short_line_skipped "oops 7".data (by decide) [] "PID\tProcess\tArgs".data
    ["100\ta.exe\ta.exe -x".data] ["200\tb.exe\tb.exe -y".data]).2.1 Store.empty
    (by decide) (by decide)

/-- C16, as stated, fails: the file "a.b.dat" ends with the suffix ".b.dat",
and with the new suffix ".bin" it is renamed to "a.b.bin", not to "a.bin":
only the extension ".dat" is removed. -/
theorem C16_rename_counterexample :
    HasSuffix "a.b.dat".data ".b.dat".data = true
    ∧ Ext "a.b.dat".data = ".dat".data
    ∧ FilesPlugin.RenameDumpedFilesExtention exampleRenameEnv ".b.dat".data ".bin".data
        [{ path := "out".data, Name := "out".data, IsDir := true, err := none },
         { path := "out/a.b.dat".data, Name := "a.b.dat".data, IsDir := false, err := none }]
      = (none, [("out/a.b.dat".data, "out/a.b.bin".data)])
    ∧ Spec.replaceSuffix "a.b.dat".data ".b.dat".data ".bin".data = "a.bin".data
    ∧ "a.b.bin".data ≠ "a.bin".data := by
  decide

/-- C16, amended: every rename `RenameDumpedFilesExtention` makes is of a
visited entry that is not a directory and whose name ends with `matchSuffix`,
so directories and files with other names keep their names; the new name is
the original name with its extension, as given by `filepath.Ext`, removed and
`newSuffix` appended, in the directory of the file; when `matchSuffix` is that
extension, this is the original name with the matched suffix replaced by
`newSuffix`. A file that matches is renamed when the walk reaches it. -/
theorem C16_rename (env : RenameEnv) (matchSuffix newSuffix : Str) :
    (∀ visits old new,
      (old, new) ∈ (FilesPlugin.RenameDumpedFilesExtention env matchSuffix newSuffix visits).2 →
      ∃ entry ∈ visits, entry.IsDir = false ∧ HasSuffix entry.Name matchSuffix = true
        ∧ old = entry.path
        ∧ new = env.Join (env.Dir entry.path) (TrimSuffix entry.Name (Ext entry.Name) ++ newSuffix))
    ∧ (∀ entry : WalkEntry, entry.err = none → entry.IsDir = false →
        HasSuffix entry.Name matchSuffix = true →
        (renameCallback env matchSuffix newSuffix entry).2
          = [(entry.path,
              env.Join (env.Dir entry.path) (TrimSuffix entry.Name (Ext entry.Name) ++ newSuffix))])
    ∧ (∀ Name : Str, HasSuffix Name matchSuffix = true → Ext Name = matchSuffix →
        TrimSuffix Name (Ext Name) ++ newSuffix = Spec.replaceSuffix Name matchSuffix newSuffix) := by
  refine ⟨?_, ?_, ?_⟩
  · intro visits old new h
    exact RenameDumpedFilesExtention_renames env matchSuffix newSuffix visits old new h
  · intro entry herr hdir hsuf
    unfold renameCallback
    rw [herr]
    simp only [hdir, hsuf, Bool.not_false, Bool.and_self, if_true, newName]
    cases env.Rename entry.path
      (env.Join (env.Dir entry.path) (TrimSuffix entry.Name (Ext entry.Name) ++ newSuffix)) <;> rfl
  · intro Name hsuf hext
    rw [hext]
    unfold TrimSuffix Spec.replaceSuffix
    rw [if_pos hsuf]

/-- C16, amended, at the file "a.img.dat" with the suffix ".dat" replaced by
".bin": the file is renamed to "a.img.bin". -/
theorem C16_rename_witness :
    (renameCallback exampleRenameEnv ".dat".data ".bin".data
        { path := "out/a.img.dat".data, Name := "a.img.dat".data, IsDir := false,
          err := none }).2
      = [("out/a.img.dat".data, "out/a.img.bin".data)] :=
  ((C16_rename exampleRenameEnv ".dat".data ".bin".data).2.1
    { path := "out/a.img.dat".data, Name := "a.img.dat".data, IsDir := false, err := none }
    rfl rfl (by decide)).trans (by decide)

/-- C11: when every external invocation succeeds, whatever the order in which
the tasks run, the error `DumpFiles` returns carries exactly the empty-offset
errors of the records that have both offset fields empty, one per such record,
each naming the path of its record, so K failures for K such records; it is nil
exactly when K is 0; and the external tool is spawned N - K times for a list of
N records. -/
theorem C11_DumpFiles_failures (cfg : Config) (envs : Nat → Env) (order : List Nat)
    (dumpFiles : List FileInfo) (outputFolder : Str)
    (hperm : order.Perm (FilesPlugin.DumpFiles.submitted dumpFiles))
    (hok : ∀ i runner args redirect, (envs i).runCmd runner args redirect = none) :
    (Spec.failuresOf (FilesPlugin.DumpFiles cfg envs order dumpFiles outputFolder).1).Perm
        ((dumpFiles.filter Spec.isInvalid).map (fun f => Err.emptyOffset f.Path))
    ∧ (Spec.failuresOf (FilesPlugin.DumpFiles cfg envs order dumpFiles outputFolder).1).length
        = (dumpFiles.filter Spec.isInvalid).length
    ∧ ((FilesPlugin.DumpFiles cfg envs order dumpFiles outputFolder).1 = none
        ↔ (dumpFiles.filter Spec.isInvalid).length = 0)
    ∧ ((FilesPlugin.DumpFiles cfg envs order dumpFiles outputFolder).2.events.filter
          Spec.isRun).length
        = dumpFiles.length - (dumpFiles.filter Spec.isInvalid).length := by
  obtain ⟨h1, h2⟩ := DumpFiles.foldl_failures cfg envs dumpFiles outputFolder order hok
    { aggregatedError := none, calls := [], events := [] }
  have hp1 : (Spec.failuresOf (FilesPlugin.DumpFiles cfg envs order dumpFiles outputFolder).1).Perm
      ((dumpFiles.filter Spec.isInvalid).map (fun f => Err.emptyOffset f.Path)) := by
    simp only [FilesPlugin.DumpFiles]
    rw [h1, ← filter_isInvalid_eq, ← range_filterMap_getElem? dumpFiles invalidErr]
    exact hperm.filterMap _
  have hlen := hp1.length_eq
  rw [List.length_map] at hlen
  refine ⟨hp1, hlen, ?_, ?_⟩
  · rw [← hlen]
    cases hres : (FilesPlugin.DumpFiles cfg envs order dumpFiles outputFolder).1 with
    | none => simp [Spec.failuresOf]
    | some e =>
      simp only [reduceCtorEq, false_iff, Spec.failuresOf]
      cases e <;> simp [Spec.failures]
  · simp only [FilesPlugin.DumpFiles]
    rw [h2, ← validMark_length, ← range_filterMap_getElem? dumpFiles validMark]
    simp only [List.filter_nil, List.length_nil, Nat.zero_add]
    exact (hperm.filterMap _).length_eq

/-- C11, at two records of which the second has no offset, the second task
running first: one failure, the empty-offset error of the second record, and
one spawn. -/
theorem C11_DumpFiles_failures_witness :
    (Spec.failuresOf (FilesPlugin.DumpFiles exampleConfig (fun _ => exampleEnv) [1, 0]
        exampleRecords "out".data).1).Perm [Err.emptyOffset "\\b.dll".data]
    ∧ ((FilesPlugin.DumpFiles exampleConfig (fun _ => exampleEnv) [1, 0]
        exampleRecords "out".data).2.events.filter Spec.isRun).length = 2 - 1 :=
  ⟨(C11_DumpFiles_failures exampleConfig (fun _ => exampleEnv) [1, 0] exampleRecords
      "out".data (by decide) (fun _ _ _ _ => rfl)).1,
   (C11_DumpFiles_failures exampleConfig (fun _ => exampleEnv) [1, 0] exampleRecords
      "out".data (by decide) (fun _ _ _ _ => rfl)).2.2.2⟩

end VolaAuto
